import Mathlib

/-!
IO middle layer (`io_mid_demo.c`): zone remapping, write pointers, completion.

A shallow embedding of `src/io_mid_demo.c`.

* C integers: `int` is `Int` (wrapped to 32 bits by `to_int` where a wider value is
  stored into an `int`), `sector_t` / `unsigned long long` is `Nat` reduced modulo
  `2 ^ 64`, `unsigned int` is `Nat` reduced modulo `2 ^ 32`.
* The global arrays `mapping_table[NUM_ZONES]` and `zones[NUM_ZONES]` are functions
  from the index; every access checks the index against `NUM_ZONES` and an access
  outside the array is the outcome `fault`.
* The randomness source is the stream of the values that the successive calls of
  `get_random_int()` return.
* Kernel helpers used by the source are modelled by their contract:
  `bio_for_each_segment` walks the segments with a private copy `iter` of
  `bio->bi_iter` whose `bi_sector` (a sector number) grows by `bv_len >> 9` after each
  segment; `bio_split(bio, sectors, ..)` stops on a `BUG_ON` unless
  `0 < sectors < bio_sectors(bio)`, may fail to allocate, and otherwise cuts the first
  `sectors` sectors off the request; `atomic_dec_and_test` is one atomic step, so
  concurrent completions are a sequence of calls of `end_bio` in some order.
-/

namespace IoMidDemo

/-! ## Constants and machine integers -/

/-- The macro `ZONE_SIZE`, `(1ULL << 30)`. -/
def ZONE_SIZE : Nat := 1 <<< 30

/-- The macro `NUM_ZONES`. -/
def NUM_ZONES : Nat := 100

/-- The kernel constant `SECTOR_SHIFT` (512-byte sectors). -/
def SECTOR_SHIFT : Nat := 9

/-- The errno `EIO`. -/
def EIO : Int := 5

/-- Range of `sector_t` and `unsigned long long`. -/
def U64 : Nat := 2 ^ 64

/-- Range of `unsigned int`. -/
def U32 : Nat := 2 ^ 32

/-- Conversion of an integer value to a 32-bit `int` (two's complement wrap). -/
def to_int (x : Int) : Int := (x + 2 ^ 31) % 2 ^ 32 - 2 ^ 31

/-- Conversion of an `int` to `unsigned long long`. -/
def to_u64 (x : Int) : Nat := (x % 2 ^ 64).toNat

/-! ## Data model -/

/-- The C type `struct mapping_entry`. -/
structure mapping_entry where
  src_zone : Int
  dest_zone : Int
  deriving DecidableEq, Repr

/-- The C type `struct zone`. -/
structure zone where
  zone_id : Int
  write_pointer : Nat
  deriving DecidableEq, Repr

/-- The global variables of the module: `device_size`, `mapping_table`, `zones`. -/
structure Globals where
  device_size : Nat
  mapping_table : Nat → mapping_entry
  zones : Nat → zone

/-! ## `init_mapping_table_and_zones` -/

/-- The value returned by the `call`-th call of `get_random_int()` (an `unsigned int`). -/
def get_random_int (rnd : Nat → Nat) (call : Nat) : Nat := rnd call % U32

/-- Lines 116-119: `for (i = 0; i < NUM_ZONES; i++) dest_zones[i] = i;` on the local
array `dest_zones`. -/
def fill_dest_zones (dest_zones : Nat → Int) : Nat → Int :=
  (List.range NUM_ZONES).foldl (fun d i => Function.update d i (i : Int)) dest_zones

/-- Lines 124-127: the body of the shuffle loop at index `i`; the state is the local
array and the number of calls of `get_random_int()` made so far. -/
def shuffle_body (rnd : Nat → Nat) (s : (Nat → Int) × Nat) (i : Nat) : (Nat → Int) × Nat :=
  let dest_zones := s.1
  let j := get_random_int rnd s.2 % (i + 1)
  let temp := dest_zones i
  let dest_zones := Function.update dest_zones i (dest_zones j)
  let dest_zones := Function.update dest_zones j temp
  (dest_zones, s.2 + 1)

/-- The values taken by `i` in `for (i = NUM_ZONES - 1; i > 0; i--)`, in order. -/
def shuffle_indices : List Nat := (List.range' 1 (NUM_ZONES - 1)).reverse

/-- Lines 122-128: the shuffle loop. -/
def shuffle_loop (rnd : Nat → Nat) (dest_zones : Nat → Int) : (Nat → Int) × Nat :=
  shuffle_indices.foldl (shuffle_body rnd) (dest_zones, 0)

/-- Lines 133-137: the body of the loop that builds the two tables. -/
def build_body (dest_zones : Nat → Int) (g : Globals) (i : Nat) : Globals :=
  { g with
    mapping_table := Function.update g.mapping_table i
      { src_zone := (i : Int), dest_zone := dest_zones i }
    zones := Function.update g.zones i { zone_id := (i : Int), write_pointer := 0 } }

/-- The function `init_mapping_table_and_zones`: `rnd` is the randomness source,
`g` the globals before the call. The local array starts with unspecified contents,
taken to be zero. -/
def init_mapping_table_and_zones (rnd : Nat → Nat) (g : Globals) : Globals :=
  let dest_zones := fill_dest_zones (fun _ => 0)
  let dest_zones := (shuffle_loop rnd dest_zones).1
  (List.range NUM_ZONES).foldl (build_body dest_zones) g

/-! ## Requests and `middle_layer_io` -/

/-- A request (`struct bio`) as `middle_layer_io` reads it: the starting sector
`bi_iter.bi_sector` and the byte lengths `bv_len` of the segments that
`bio_for_each_segment` yields, in order. -/
structure bio where
  bi_sector : Nat
  segs : List Nat
  deriving DecidableEq, Repr

/-- The field `bi_iter.bi_size` (an `unsigned int`): the bytes left in the request,
the sum of its segments. -/
def bio.bi_size (b : bio) : Nat := b.segs.sum % U32

/-- The kernel macro `bio_sectors`, on the value of `bi_iter.bi_size`. -/
def bio_sectors (bi_size : Nat) : Nat := bi_size >>> SECTOR_SHIFT

/-- What a call does to the outside world, in order. -/
inductive Effect where
  /-- The call `bio_endio(bio, error)` on the original request. -/
  | bio_endio (error : Int)
  /-- The call `submit_bio(split_bio)`, with the sub-request's sector and byte size. -/
  | submit_split (bi_sector bi_size : Nat)
  /-- The call `submit_bio(bio)` on the original request, with its sector and byte size. -/
  | submit_bio (bi_sector bi_size : Nat)
  deriving DecidableEq, Repr

/-- The mutable state of the segment loop: the `zones` table, the fields
`bi_iter.bi_sector` and `bi_iter.bi_size` of the original request, the loop
iterator's `iter.bi_sector`, and the effects so far. -/
structure Loop where
  zones : Nat → zone
  bi_sector : Nat
  bi_size : Nat
  iter_sector : Nat
  trace : List Effect

/-- How the loop body (or the loop) ends. -/
inductive Step where
  /-- The body ran to its end and the loop goes on. -/
  | next (l : Loop)
  /-- A `return` inside the body. -/
  | ret (l : Loop)
  /-- An index of `mapping_table` or `zones` outside `0..NUM_ZONES`. -/
  | fault
  /-- A `BUG_ON` of the kernel function `bio_split`. -/
  | bug

/-- Line 40: `end_sector = start_sector + (bio_sectors(bio) - 1)`; the subtraction is
done in `unsigned int`, the addition in `sector_t`. -/
def end_sector (b : bio) : Nat :=
  (b.bi_sector + (bio_sectors b.bi_size + U32 - 1) % U32) % U64

/-- Line 53: `sector = start_sector + (iter.bi_sector >> SECTOR_SHIFT)`, the sector at
which the loop body translates and validates the current segment. -/
def segment_sector (start_sector : Nat) (l : Loop) : Nat :=
  (start_sector + (l.iter_sector >>> SECTOR_SHIFT)) % U64

/-- Lines 53-87: the body of `bio_for_each_segment` for a segment of `bv_len` bytes.
`split_ok` tells whether the allocation inside `bio_split` succeeds. The kernel
function `bio_split(bio, sectors, ..)` stops on `BUG_ON(sectors <= 0)` and on
`BUG_ON(sectors >= bio_sectors(bio))`, returns a sub-request of `sectors << 9` bytes
and advances the original request by as much. -/
def segment_body (g : Globals) (split_ok : Bool) (start_sector : Nat) (l : Loop)
    (bv_len : Nat) : Step :=
  let sector := segment_sector start_sector l
  let offset := sector % ZONE_SIZE
  let src_zone := to_int ((sector / ZONE_SIZE : Nat) : Int)
  if src_zone < 0 ∨ (NUM_ZONES : Int) ≤ src_zone then .fault
  else
    let dest_zone := (g.mapping_table src_zone.toNat).dest_zone
    if offset + bv_len > ZONE_SIZE then
      let sectors := to_int (offset : Int)
      if sectors ≤ 0 ∨ (bio_sectors l.bi_size : Int) ≤ sectors then .bug
      else if split_ok then
        let split_size := (sectors.toNat <<< SECTOR_SHIFT) % U32
        let split_sector := (to_u64 dest_zone * ZONE_SIZE + offset % ZONE_SIZE) % U64
        .next { l with
          bi_sector := (l.bi_sector + (split_size >>> SECTOR_SHIFT)) % U64
          bi_size := l.bi_size - split_size
          trace := l.trace ++ [.submit_split split_sector split_size] }
      else .next l
    else
      if sector ≠ (l.zones src_zone.toNat).write_pointer then
        .ret { l with trace := l.trace ++ [.bio_endio (- EIO)] }
      else
        .next { l with
          bi_sector := (to_u64 dest_zone * ZONE_SIZE + offset) % U64
          zones := Function.update l.zones src_zone.toNat
            { l.zones src_zone.toNat with
              write_pointer :=
                ((l.zones src_zone.toNat).write_pointer + (bv_len >>> SECTOR_SHIFT)) % U64 } }

/-- The step of `bio_for_each_segment` after the body: `bio_advance_iter` adds
`bv_len >> 9` to `iter.bi_sector`. -/
def advance_iter (l : Loop) (bv_len : Nat) : Loop :=
  { l with iter_sector := (l.iter_sector + (bv_len >>> SECTOR_SHIFT)) % U64 }

/-- The loop goes on with `k` after a body that ran to its end; a `return`, a fault
or a `BUG_ON` in the body ends the loop. -/
def Step.and_then (st : Step) (k : Loop → Step) : Step :=
  match st with
  | .next l => k l
  | .ret l => .ret l
  | .fault => .fault
  | .bug => .bug

/-- Lines 51-88: the loop `bio_for_each_segment (bvec, bio, iter)` over the remaining
segments; `n` is the position of the next segment and `alloc n` tells whether the
allocation of a `bio_split` at that segment succeeds. -/
def segment_loop (g : Globals) (alloc : Nat → Bool) (start_sector : Nat) :
    Nat → Loop → List Nat → Step
  | _, l, [] => .next l
  | n, l, bv_len :: rest =>
    (segment_body g (alloc n) start_sector l bv_len).and_then
      (fun l' => segment_loop g alloc start_sector (n + 1) (advance_iter l' bv_len) rest)

/-- How a call of `middle_layer_io` ends. -/
inductive Outcome where
  /-- The call returned: the `zones` table and the effects of the call. -/
  | done (zones : Nat → zone) (trace : List Effect)
  /-- An index of `mapping_table` or `zones` outside `0..NUM_ZONES`. -/
  | fault
  /-- A `BUG_ON` of the kernel function `bio_split`. -/
  | bug

/-- The loop state on entry of `bio_for_each_segment`: the iterator is a copy of
`bio->bi_iter`. -/
def Loop.enter (g : Globals) (b : bio) : Loop :=
  { zones := g.zones, bi_sector := b.bi_sector, bi_size := b.bi_size,
    iter_sector := b.bi_sector, trace := [] }

/-- The function `middle_layer_io` on the globals `g` and the request `b`. -/
def middle_layer_io (g : Globals) (alloc : Nat → Bool) (b : bio) : Outcome :=
  let start_sector := b.bi_sector
  if end_sector b ≥ g.device_size then
    .done g.zones [.bio_endio (- EIO)]
  else
    match segment_loop g alloc start_sector 0 (Loop.enter g b) b.segs with
    | .next l => .done l.zones (l.trace ++ [.submit_bio l.bi_sector l.bi_size])
    | .ret l => .done l.zones l.trace
    | .fault => .fault
    | .bug => .bug

/-- The effects of a call that returned. -/
def Outcome.trace? : Outcome → Option (List Effect)
  | .done _ t => some t
  | _ => none

/-- The write pointer of zone `z` after a call that returned. -/
def Outcome.write_pointer? (z : Nat) : Outcome → Option Nat
  | .done zs _ => some (zs z).write_pointer
  | _ => none

/-- The globals after a call that returned with the table `zs`. -/
def Globals.with_zones (g : Globals) (zs : Nat → zone) : Globals := { g with zones := zs }

/-- The states of the module: the one left by `init_mapping_table_and_zones` (for any
randomness, device size and earlier contents of the tables), and the ones left by a
returning call of `middle_layer_io` on any request. -/
inductive Reachable : Globals → Prop where
  | init (rnd : Nat → Nat) (g : Globals) : Reachable (init_mapping_table_and_zones rnd g)
  | io (g : Globals) (alloc : Nat → Bool) (b : bio) (zs : Nat → zone) (t : List Effect) :
      Reachable g → middle_layer_io g alloc b = .done zs t → Reachable (g.with_zones zs)

/-! ## `end_bio` -/

/-- The fields of the parent request that `end_bio` uses: the counter `bi_remaining`
(an `atomic_t`) and `bi_status`. -/
structure parent_bio where
  bi_remaining : Int
  bi_status : Int
  deriving DecidableEq, Repr

/-- A sub-request handed to `end_bio`: a name and the status it completed with. -/
structure sub_bio where
  id : Nat
  bi_status : Int
  deriving DecidableEq, Repr

/-- What `end_bio` does to the outside world. -/
inductive EndEffect where
  /-- The call `bio_put(bio)` on the sub-request. -/
  | bio_put (id : Nat)
  /-- The call `bio_endio(parent_bio, status)`: the parent's completion. -/
  | bio_endio (status : Int)
  deriving DecidableEq, Repr

/-- The parent request and the effects so far. -/
structure EndState where
  parent : parent_bio
  trace : List EndEffect
  deriving DecidableEq, Repr

/-- The kernel function `atomic_dec_and_test`: the decremented counter and whether it
is zero. -/
def atomic_dec_and_test (v : Int) : Int × Bool :=
  let v' := to_int (v - 1)
  (v', decide (v' = 0))

/-- The function `end_bio` called on the sub-request `b` of the parent in `s`. -/
def end_bio (s : EndState) (b : sub_bio) : EndState :=
  let trace := s.trace ++ [EndEffect.bio_put b.id]
  let r := atomic_dec_and_test s.parent.bi_remaining
  let parent_bio := { s.parent with bi_remaining := r.1 }
  if r.2 then
    { parent := parent_bio, trace := trace ++ [EndEffect.bio_endio parent_bio.bi_status] }
  else
    { parent := parent_bio, trace := trace }

/-- The calls of `end_bio` on the sub-requests of `bs`, in that order. -/
def end_bios (s : EndState) (bs : List sub_bio) : EndState := bs.foldl end_bio s

/-- The number of completions of the parent in a trace. -/
def completions (t : List EndEffect) : Nat :=
  (t.filter (fun e => match e with | .bio_endio _ => true | _ => false)).length

/-- The local array holds a permutation of `0..NUM_ZONES`: it is a permutation of the
naturals that moves no index from `NUM_ZONES` on. -/
def IsShuffled (d : Nat → Int) : Prop :=
  ∃ σ : Equiv.Perm Nat, (∀ k, NUM_ZONES ≤ k → σ k = k) ∧ ∀ k, k < NUM_ZONES → d k = (σ k : Int)

/-- The invariant of the `zones` table: the write pointer of zone 0 is at most
`ZONE_SIZE` and the write pointer of every other zone is 0. -/
def ZonesInv (zs : Nat → zone) : Prop :=
  (zs 0).write_pointer ≤ ZONE_SIZE ∧
  ∀ z, 1 ≤ z → z < NUM_ZONES → (zs z).write_pointer = 0

/-! ## Sample states and requests -/

/-- Globals before initialisation: zeroed tables, a device of `NUM_ZONES` zones. -/
def zero_globals : Globals :=
  { device_size := NUM_ZONES * ZONE_SIZE
    mapping_table := fun _ => { src_zone := 0, dest_zone := 0 }
    zones := fun _ => { zone_id := 0, write_pointer := 0 } }

/-- A sample randomness source. -/
def sample_rnd (call : Nat) : Nat := call * 7919 + 13

/-- The state left by the initialisation with the sample randomness source. -/
def sample_globals : Globals := init_mapping_table_and_zones sample_rnd zero_globals

/-- The globals after a call: the new `zones` table when the call returned. -/
def Outcome.globals (g : Globals) : Outcome → Globals
  | .done zs _ => g.with_zones zs
  | _ => g

/-- The loop state carried by a step that ended with `next` or `ret`. -/
def Step.loop (l0 : Loop) : Step → Loop
  | .next l => l
  | .ret l => l
  | _ => l0

/-- Whether the body ran to its end. -/
def Step.is_next : Step → Bool
  | .next _ => true
  | _ => false

/-- Whether the body ended on its `return`. -/
def Step.is_ret : Step → Bool
  | .ret _ => true
  | _ => false

/-- Whether a call ended on an index outside the tables. -/
def Outcome.is_fault : Outcome → Bool
  | .fault => true
  | _ => false

/-- Whether a call ended on a `BUG_ON`. -/
def Outcome.is_bug : Outcome → Bool
  | .bug => true
  | _ => false

/-- A segment of `bv_len` bytes is accepted in zone `z` by the loop body in state `l`
(lines 57-86): the zone index computed from its sector is `z`, inside the tables, the
test of line 61 finds no crossing, and the sector equals the write pointer of the
zone. -/
def Accepted (start_sector : Nat) (l : Loop) (bv_len : Nat) (z : Nat) : Prop :=
  0 ≤ to_int ((segment_sector start_sector l / ZONE_SIZE : Nat) : Int) ∧
  to_int ((segment_sector start_sector l / ZONE_SIZE : Nat) : Int) < (NUM_ZONES : Int) ∧
  (to_int ((segment_sector start_sector l / ZONE_SIZE : Nat) : Int)).toNat = z ∧
  segment_sector start_sector l % ZONE_SIZE + bv_len ≤ ZONE_SIZE ∧
  segment_sector start_sector l = (l.zones z).write_pointer

/-- Every remaining segment stays within one zone and matches the write pointer of
its zone when the loop reaches it: each one is accepted in some zone, and the next one
is looked at in the state the body leaves. -/
def all_accepted (g : Globals) (alloc : Nat → Bool) (start_sector : Nat) :
    Nat → Loop → List Nat → Prop
  | _, _, [] => True
  | n, l, bv_len :: rest =>
    (∃ z, Accepted start_sector l bv_len z) ∧
    all_accepted g alloc start_sector (n + 1)
      (advance_iter ((segment_body g (alloc n) start_sector l bv_len).loop l) bv_len) rest

/-- The number of completions of the original request in a trace. -/
def endio_count (t : List Effect) : Nat :=
  (t.filter (fun e => match e with | .bio_endio _ => true | _ => false)).length

/-- The number of times the original request is forwarded in a trace. -/
def submit_count (t : List Effect) : Nat :=
  (t.filter (fun e => match e with | .submit_bio _ _ => true | _ => false)).length

/-- The number of split sub-requests forwarded in a trace. -/
def split_count (t : List Effect) : Nat :=
  (t.filter (fun e => match e with | .submit_split _ _ => true | _ => false)).length

end IoMidDemo

namespace IoMidDemo

/-! ## Initialisation: auxiliary lemmas -/

theorem foldl_update_range {α : Type} (f : Nat → α) (d : Nat → α) (n k : Nat) :
    (List.range n).foldl (fun d i => Function.update d i (f i)) d k
      = if k < n then f k else d k := by
  induction n with
  | zero => simp
  | succ n ih =>
    rw [List.range_succ, List.foldl_append]
    simp only [List.foldl_cons, List.foldl_nil, Function.update_apply]
    by_cases hk : k = n
    · subst hk; simp
    · rw [if_neg hk, ih]
      by_cases h1 : k < n
      · rw [if_pos h1, if_pos (by omega)]
      · rw [if_neg h1, if_neg (by omega)]

theorem fill_dest_zones_apply (d : Nat → Int) (k : Nat) (hk : k < NUM_ZONES) :
    fill_dest_zones d k = (k : Int) := by
  unfold fill_dest_zones
  rw [foldl_update_range (fun i => (i : Int)) d NUM_ZONES k, if_pos hk]

theorem isShuffled_fill (d : Nat → Int) : IsShuffled (fill_dest_zones d) :=
  ⟨Equiv.refl Nat, fun _ _ => rfl, fun k hk => by simp [fill_dest_zones_apply d k hk]⟩

theorem get_random_index_le (rnd : Nat → Nat) (c i : Nat) :
    get_random_int rnd c % (i + 1) ≤ i :=
  Nat.lt_succ_iff.mp (Nat.mod_lt _ (Nat.succ_pos i))

theorem isShuffled_body (rnd : Nat → Nat) (s : (Nat → Int) × Nat) (i : Nat)
    (hi : i < NUM_ZONES) (hs : IsShuffled s.1) : IsShuffled (shuffle_body rnd s i).1 := by
  obtain ⟨σ, hfix, hval⟩ := hs
  have hj : get_random_int rnd s.2 % (i + 1) ≤ i := get_random_index_le rnd s.2 i
  generalize hjdef : get_random_int rnd s.2 % (i + 1) = j at hj
  refine ⟨(Equiv.swap i j).trans σ, ?_, ?_⟩
  · intro k hk
    have h1 : k ≠ i := by omega
    have h2 : k ≠ j := by omega
    simp [Equiv.swap_apply_of_ne_of_ne h1 h2, hfix k hk]
  · intro k hk
    simp only [shuffle_body, hjdef, Equiv.trans_apply, Function.update_apply]
    by_cases hkj : k = j
    · subst hkj
      rw [if_pos rfl, Equiv.swap_apply_right]
      exact hval i hi
    · rw [if_neg hkj]
      by_cases hki : k = i
      · subst hki
        rw [if_pos rfl, Equiv.swap_apply_left]
        exact hval j (by omega)
      · rw [if_neg hki, Equiv.swap_apply_of_ne_of_ne hki hkj]
        exact hval k hk

theorem isShuffled_foldl (rnd : Nat → Nat) (is : List Nat) (his : ∀ i ∈ is, i < NUM_ZONES)
    (s : (Nat → Int) × Nat) (hs : IsShuffled s.1) :
    IsShuffled (is.foldl (shuffle_body rnd) s).1 := by
  induction is generalizing s with
  | nil => simpa using hs
  | cons i is ih =>
    rw [List.foldl_cons]
    exact ih (fun x hx => his x (List.mem_cons_of_mem _ hx)) _
      (isShuffled_body rnd s i (his i (List.mem_cons_self _ _)) hs)

theorem shuffle_indices_lt (i : Nat) (hi : i ∈ shuffle_indices) : i < NUM_ZONES := by
  simp only [shuffle_indices, List.mem_reverse, List.mem_range'_1, NUM_ZONES] at hi
  simp only [NUM_ZONES]
  omega

theorem isShuffled_loop (rnd : Nat → Nat) (d : Nat → Int) (hd : IsShuffled d) :
    IsShuffled (shuffle_loop rnd d).1 :=
  isShuffled_foldl rnd shuffle_indices shuffle_indices_lt (d, 0) hd

theorem build_foldl (dz : Nat → Int) (g : Globals) (n : Nat) :
    ((List.range n).foldl (build_body dz) g).device_size = g.device_size ∧
    (∀ k, ((List.range n).foldl (build_body dz) g).mapping_table k
      = if k < n then { src_zone := (k : Int), dest_zone := dz k } else g.mapping_table k) ∧
    (∀ k, ((List.range n).foldl (build_body dz) g).zones k
      = if k < n then { zone_id := (k : Int), write_pointer := 0 } else g.zones k) := by
  induction n with
  | zero => simp
  | succ n ih =>
    obtain ⟨h1, h2, h3⟩ := ih
    rw [List.range_succ, List.foldl_append]
    simp only [List.foldl_cons, List.foldl_nil, build_body, Function.update_apply]
    refine ⟨h1, fun k => ?_, fun k => ?_⟩
    · by_cases hk : k = n
      · subst hk; simp
      · rw [if_neg hk, h2 k]
        by_cases h : k < n
        · rw [if_pos h, if_pos (by omega)]
        · rw [if_neg h, if_neg (by omega)]
    · by_cases hk : k = n
      · subst hk; simp
      · rw [if_neg hk, h3 k]
        by_cases h : k < n
        · rw [if_pos h, if_pos (by omega)]
        · rw [if_neg h, if_neg (by omega)]

/-- The tables after `init_mapping_table_and_zones`, entry by entry. -/
theorem init_tables (rnd : Nat → Nat) (g : Globals) :
    (init_mapping_table_and_zones rnd g).device_size = g.device_size ∧
    (∀ k, k < NUM_ZONES → (init_mapping_table_and_zones rnd g).mapping_table k
      = { src_zone := (k : Int),
          dest_zone := (shuffle_loop rnd (fill_dest_zones (fun _ => 0))).1 k }) ∧
    (∀ k, k < NUM_ZONES → (init_mapping_table_and_zones rnd g).zones k
      = { zone_id := (k : Int), write_pointer := 0 }) := by
  obtain ⟨h1, h2, h3⟩ :=
    build_foldl (shuffle_loop rnd (fill_dest_zones (fun _ => 0))).1 g NUM_ZONES
  refine ⟨h1, fun k hk => ?_, fun k hk => ?_⟩
  · have := h2 k
    rw [if_pos hk] at this
    exact this
  · have := h3 k
    rw [if_pos hk] at this
    exact this

/-- After initialisation the physical zones are the values of a permutation of the
naturals that fixes every index from `NUM_ZONES` on. -/
theorem init_dest_zone_perm (rnd : Nat → Nat) (g : Globals) :
    ∃ σ : Equiv.Perm Nat, (∀ k, NUM_ZONES ≤ k → σ k = k) ∧
      ∀ k, k < NUM_ZONES →
        ((init_mapping_table_and_zones rnd g).mapping_table k).dest_zone = (σ k : Int) := by
  obtain ⟨σ, hfix, hval⟩ := isShuffled_loop rnd _ (isShuffled_fill (fun _ => 0))
  refine ⟨σ, hfix, fun k hk => ?_⟩
  rw [(init_tables rnd g).2.1 k hk]
  exact hval k hk

theorem perm_lt_of_fix (σ : Equiv.Perm Nat) (hfix : ∀ k, NUM_ZONES ≤ k → σ k = k)
    (k : Nat) (hk : k < NUM_ZONES) : σ k < NUM_ZONES := by
  by_contra h
  have h1 : σ (σ k) = σ k := hfix (σ k) (by omega)
  have h2 : σ k = k := σ.injective h1
  omega

/-! ## Initialisation: the claims -/

/-- C1: for every sequence of values returned by the randomness source, after
`init_mapping_table_and_zones` the map `i -> mapping_table[i].dest_zone` is a bijection
on `0..NUM_ZONES`: every value lies in `0..NUM_ZONES`, no two logical zones share a
physical zone, and every physical zone is used by exactly one logical zone. -/
theorem C1_init_dest_zone_bijection (rnd : Nat → Nat) (g : Globals) :
    (∀ i, i < NUM_ZONES →
      0 ≤ ((init_mapping_table_and_zones rnd g).mapping_table i).dest_zone ∧
      ((init_mapping_table_and_zones rnd g).mapping_table i).dest_zone < (NUM_ZONES : Int)) ∧
    (∀ i j, i < NUM_ZONES → j < NUM_ZONES →
      ((init_mapping_table_and_zones rnd g).mapping_table i).dest_zone
        = ((init_mapping_table_and_zones rnd g).mapping_table j).dest_zone → i = j) ∧
    (∀ p, p < NUM_ZONES → ∃! i, i < NUM_ZONES ∧
      ((init_mapping_table_and_zones rnd g).mapping_table i).dest_zone = (p : Int)) := by
  obtain ⟨σ, hfix, hval⟩ := init_dest_zone_perm rnd g
  refine ⟨fun i hi => ?_, fun i j hi hj h => ?_, fun p hp => ?_⟩
  · rw [hval i hi]
    have := perm_lt_of_fix σ hfix i hi
    omega
  · rw [hval i hi, hval j hj] at h
    exact σ.injective (by exact_mod_cast h)
  · have hlt : σ.symm p < NUM_ZONES := by
      by_contra h
      have h1 : σ (σ.symm p) = σ.symm p := hfix _ (by omega)
      rw [Equiv.apply_symm_apply] at h1
      omega
    refine ⟨σ.symm p, ⟨hlt, ?_⟩, ?_⟩
    · rw [hval _ hlt, Equiv.apply_symm_apply]
    · rintro i ⟨hi, hip⟩
      rw [hval i hi] at hip
      have : σ i = p := by exact_mod_cast hip
      rw [← this, Equiv.symm_apply_apply]

/-- C10: after `init_mapping_table_and_zones`, for every `i` in `0..NUM_ZONES`,
`zones[i].write_pointer = 0`, `zones[i].zone_id = i` and `mapping_table[i].src_zone = i`,
whatever the randomness source returned. -/
theorem C10_init_zone_fields (rnd : Nat → Nat) (g : Globals) (i : Nat) (hi : i < NUM_ZONES) :
    ((init_mapping_table_and_zones rnd g).zones i).write_pointer = 0 ∧
    ((init_mapping_table_and_zones rnd g).zones i).zone_id = (i : Int) ∧
    ((init_mapping_table_and_zones rnd g).mapping_table i).src_zone = (i : Int) := by
  obtain ⟨_, h2, h3⟩ := init_tables rnd g
  rw [h2 i hi, h3 i hi]
  exact ⟨rfl, rfl, rfl⟩

/-! ## Machine arithmetic: auxiliary lemmas -/

theorem ZONE_SIZE_eq : ZONE_SIZE = 1073741824 := by rfl

theorem U64_eq : U64 = 18446744073709551616 := by rfl

theorem U32_eq : U32 = 4294967296 := by rfl

theorem shiftRight_sector (x : Nat) : x >>> SECTOR_SHIFT = x / 512 := by
  simp [SECTOR_SHIFT, Nat.shiftRight_eq_div_pow]

theorem to_int_of_lt (n : Nat) (h : n < 2147483648) : to_int (n : Int) = (n : Int) := by
  unfold to_int
  omega

theorem to_u64_of_nonneg (d : Int) (h0 : 0 ≤ d) (h1 : d < 18446744073709551616) :
    to_u64 d = d.toNat := by
  unfold to_u64
  congr 1
  omega

/-- Line 40 without wrap-around: for a request of at least one sector whose last
sector is below `2 ^ 64`, `end_sector` is `start_sector + sector_count - 1`. -/
theorem end_sector_eq_last (b : bio) (h1 : 1 ≤ bio_sectors b.bi_size)
    (h2 : b.bi_sector + bio_sectors b.bi_size - 1 < U64) :
    end_sector b = b.bi_sector + bio_sectors b.bi_size - 1 := by
  have hlt : bio_sectors b.bi_size < U32 := by
    have : b.bi_size < U32 := Nat.mod_lt _ (by decide)
    rw [bio_sectors, shiftRight_sector]
    omega
  rw [U64_eq] at h2
  rw [U32_eq] at hlt
  unfold end_sector
  rw [U64_eq, U32_eq]
  omega

theorem init_dest_zone_range (rnd : Nat → Nat) (g : Globals) (z : Nat) (hz : z < NUM_ZONES) :
    0 ≤ ((init_mapping_table_and_zones rnd g).mapping_table z).dest_zone ∧
    ((init_mapping_table_and_zones rnd g).mapping_table z).dest_zone < (NUM_ZONES : Int) := by
  obtain ⟨σ, hfix, hval⟩ := init_dest_zone_perm rnd g
  rw [hval z hz]
  have := perm_lt_of_fix σ hfix z hz
  omega

/-! ## `middle_layer_io`: the bounds check -/


section WrapEvaluation

set_option maxRecDepth 20000

/-- C2, evaluated on the code: the request of two sectors at sector `2 ^ 64 - 1` has its
last covered sector at `2 ^ 64`, beyond the device, but the sum of line 40 wraps to
`end_sector = 0`, the bounds check of line 45 passes, and the call goes on to index
`mapping_table` outside its range instead of completing the request with an I/O
error. -/
theorem C2_wrapped_last_sector_not_rejected :
    (sample_globals.device_size : Int)
      ≤ ((2 ^ 64 - 1 : Nat) : Int)
        + (bio_sectors (bio.bi_size { bi_sector := 2 ^ 64 - 1, segs := [1024] }) : Int) - 1 ∧
    end_sector { bi_sector := 2 ^ 64 - 1, segs := [1024] } = 0 ∧
    (middle_layer_io sample_globals (fun _ => true)
      { bi_sector := 2 ^ 64 - 1, segs := [1024] }).is_fault = true ∧
    (middle_layer_io sample_globals (fun _ => true)
      { bi_sector := 2 ^ 64 - 1, segs := [1024] }).trace? = none := by
  refine ⟨by decide, by decide, by decide, by decide⟩

end WrapEvaluation

/-- The early return of lines 45-49: when the value `end_sector` of line 40 is
`>= device_size`, `middle_layer_io` completes the original request with `-EIO`,
forwards nothing, and leaves the `zones` table unchanged. -/
theorem middle_layer_io_out_of_range (g : Globals) (alloc : Nat → Bool) (b : bio)
    (h : g.device_size ≤ end_sector b) :
    middle_layer_io g alloc b = Outcome.done g.zones [Effect.bio_endio (- EIO)] := by
  unfold middle_layer_io
  simp only [ge_iff_le]
  rw [if_pos h]

section BoundsExample

set_option maxRecDepth 20000

theorem middle_layer_io_out_of_range_example :
    sample_globals.device_size ≤ end_sector { bi_sector := 100 * 2 ^ 30, segs := [512] } ∧
    middle_layer_io sample_globals (fun _ => true) { bi_sector := 100 * 2 ^ 30, segs := [512] }
      = Outcome.done sample_globals.zones [Effect.bio_endio (- EIO)] :=
  ⟨by decide, middle_layer_io_out_of_range sample_globals (fun _ => true)
    { bi_sector := 100 * 2 ^ 30, segs := [512] } (by decide)⟩

end BoundsExample

/-! ## `middle_layer_io`: the write-pointer check -/

section PointerEvaluation

set_option maxRecDepth 20000

/-- C3, evaluated on the code. (1) In the state left by the initialisation, zone 1 has
write pointer 0; the one-sector request at sector `ZONE_SIZE` is in range, lies in
zone 1 and starts at in-zone offset 0, yet the call completes it with `-EIO` and
forwards nothing. (2) After a first request of 513 sectors at sector 0, zone 0 has
write pointer 513; the one-sector request at sector 512 (in-zone offset 512, not 513)
is accepted, forwarded, and moves the write pointer to 514. -/
theorem C3_write_pointer_check_evaluated :
    (sample_globals.zones 1).write_pointer = 0 ∧
    ZONE_SIZE / ZONE_SIZE = 1 ∧ ZONE_SIZE % ZONE_SIZE = 0 ∧
    end_sector { bi_sector := ZONE_SIZE, segs := [512] } < sample_globals.device_size ∧
    (middle_layer_io sample_globals (fun _ => true)
      { bi_sector := ZONE_SIZE, segs := [512] }).trace? = some [Effect.bio_endio (- EIO)] ∧
    (middle_layer_io sample_globals (fun _ => true)
      { bi_sector := ZONE_SIZE, segs := [512] }).write_pointer? 1 = some 0 ∧
    (((middle_layer_io sample_globals (fun _ => true)
      { bi_sector := 0, segs := [513 * 512] }).globals sample_globals).zones 0).write_pointer
      = 513 ∧
    (middle_layer_io
      ((middle_layer_io sample_globals (fun _ => true)
        { bi_sector := 0, segs := [513 * 512] }).globals sample_globals)
      (fun _ => true) { bi_sector := 512, segs := [512] }).trace?
      = some [Effect.submit_bio (16 * ZONE_SIZE + 513) 512] ∧
    (middle_layer_io
      ((middle_layer_io sample_globals (fun _ => true)
        { bi_sector := 0, segs := [513 * 512] }).globals sample_globals)
      (fun _ => true) { bi_sector := 512, segs := [512] }).write_pointer? 0
      = some 514 := by
  refine ⟨by decide, by decide, by decide, by decide, by decide, by decide, by decide,
    by decide, by decide⟩

end PointerEvaluation

/-! ## `middle_layer_io`: address translation -/

/-- What line 83 writes, in terms of the sector of line 53: for every segment that
stays within one zone (test of line 61) and is accepted, with `s` the sector that the
loop computes for it and the zone index `s / ZONE_SIZE` in `0..NUM_ZONES`, the address
written into the request is `mapping_table[s / ZONE_SIZE].dest_zone * ZONE_SIZE +
s % ZONE_SIZE`, with no 64-bit wrap. The mapping table holds zone numbers of
`0..NUM_ZONES`, as the initialisation leaves it. -/
theorem segment_body_rewritten_address (g : Globals) (split_ok : Bool) (start_sector : Nat)
    (l l' : Loop) (bv_len : Nat)
    (hmap : ∀ z, z < NUM_ZONES →
      0 ≤ (g.mapping_table z).dest_zone ∧ (g.mapping_table z).dest_zone < (NUM_ZONES : Int))
    (hzone : segment_sector start_sector l / ZONE_SIZE < NUM_ZONES)
    (hin : segment_sector start_sector l % ZONE_SIZE + bv_len ≤ ZONE_SIZE)
    (hacc : segment_body g split_ok start_sector l bv_len = Step.next l') :
    (l'.bi_sector : Int)
      = (g.mapping_table (segment_sector start_sector l / ZONE_SIZE)).dest_zone * (ZONE_SIZE : Int)
        + ((segment_sector start_sector l % ZONE_SIZE : Nat) : Int) ∧
    ((l'.bi_sector / ZONE_SIZE : Nat) : Int)
      = (g.mapping_table (segment_sector start_sector l / ZONE_SIZE)).dest_zone ∧
    l'.bi_sector % ZONE_SIZE = segment_sector start_sector l % ZONE_SIZE := by
  have hN : NUM_ZONES = 100 := rfl
  obtain ⟨hd0, hd1⟩ := hmap _ hzone
  unfold segment_body at hacc
  simp only [] at hacc
  rw [ZONE_SIZE_eq] at hzone hin hacc hd0 hd1 ⊢
  rw [hN] at hzone hd1
  rw [to_int_of_lt _ (by omega), Int.toNat_ofNat] at hacc
  rw [if_neg (by omega), if_neg (by omega)] at hacc
  split at hacc
  · cases hacc
  · injection hacc with hacc
    subst hacc
    simp only []
    generalize (g.mapping_table (segment_sector start_sector l / 1073741824)).dest_zone = d
      at hd0 hd1 ⊢
    rw [to_u64_of_nonneg d hd0 (by omega)]
    have hoff : segment_sector start_sector l % 1073741824 < 1073741824 :=
      Nat.mod_lt _ (by omega)
    generalize segment_sector start_sector l % 1073741824 = off at hoff ⊢
    obtain ⟨n, rfl⟩ := Int.eq_ofNat_of_zero_le hd0
    simp only [Int.toNat_ofNat]
    rw [U64_eq]
    refine ⟨?_, ?_, ?_⟩ <;> omega

theorem Step.eq_next_of_is_next (l0 : Loop) (st : Step) (h : st.is_next = true) :
    st = Step.next (st.loop l0) := by
  cases st <;> simp_all [Step.is_next, Step.loop]

theorem Step.eq_ret_of_is_ret (l0 : Loop) (st : Step) (h : st.is_ret = true) :
    st = Step.ret (st.loop l0) := by
  cases st <;> simp_all [Step.is_ret, Step.loop]

section TranslationWitness

set_option maxRecDepth 20000

theorem segment_body_rewritten_address_example :
    segment_sector 0 (Loop.enter sample_globals { bi_sector := 0, segs := [256000] })
      / ZONE_SIZE < NUM_ZONES ∧
    segment_sector 0 (Loop.enter sample_globals { bi_sector := 0, segs := [256000] })
      % ZONE_SIZE + 256000 ≤ ZONE_SIZE ∧
    (sample_globals.mapping_table 0).dest_zone = 16 ∧
    ((((segment_body sample_globals true 0
        (Loop.enter sample_globals { bi_sector := 0, segs := [256000] }) 256000).loop
        (Loop.enter sample_globals { bi_sector := 0, segs := [256000] })).bi_sector : Nat) : Int)
      = (sample_globals.mapping_table
          (segment_sector 0 (Loop.enter sample_globals { bi_sector := 0, segs := [256000] })
            / ZONE_SIZE)).dest_zone * (ZONE_SIZE : Int)
        + ((segment_sector 0 (Loop.enter sample_globals { bi_sector := 0, segs := [256000] })
            % ZONE_SIZE : Nat) : Int) :=
  ⟨by decide, by decide, by decide,
    (segment_body_rewritten_address sample_globals true 0
      (Loop.enter sample_globals { bi_sector := 0, segs := [256000] }) _ 256000
      (init_dest_zone_range sample_rnd zero_globals) (by decide) (by decide)
      (Step.eq_next_of_is_next _ _ (by decide))).1⟩

/-- C4, evaluated on the code. After a first request of 513 sectors at sector 0, zone
0 has write pointer 513. The one-sector request at logical sector `s = 512` lies
wholly inside logical zone `512 / ZONE_SIZE = 0`, at in-zone offset
`512 % ZONE_SIZE = 512`, and the physical zone of zone 0 is 16. The loop handles the
segment at sector 513 (line 53), accepts it, and the address written into the
forwarded request is `16 * ZONE_SIZE + 513`, not `16 * ZONE_SIZE + 512`: the rewritten
sector does not keep the in-zone offset of the segment. -/
theorem C4_rewritten_address_evaluated :
    (((middle_layer_io sample_globals (fun _ => true)
      { bi_sector := 0, segs := [513 * 512] }).globals sample_globals).zones 0).write_pointer
      = 513 ∧
    512 / ZONE_SIZE = 0 ∧ 512 % ZONE_SIZE = 512 ∧ 512 % ZONE_SIZE + 1 ≤ ZONE_SIZE ∧
    (((middle_layer_io sample_globals (fun _ => true)
      { bi_sector := 0, segs := [513 * 512] }).globals sample_globals).mapping_table
      (512 / ZONE_SIZE)).dest_zone = 16 ∧
    segment_sector 512
      (Loop.enter
        ((middle_layer_io sample_globals (fun _ => true)
          { bi_sector := 0, segs := [513 * 512] }).globals sample_globals)
        { bi_sector := 512, segs := [512] }) = 513 ∧
    (segment_body
      ((middle_layer_io sample_globals (fun _ => true)
        { bi_sector := 0, segs := [513 * 512] }).globals sample_globals)
      true 512
      (Loop.enter
        ((middle_layer_io sample_globals (fun _ => true)
          { bi_sector := 0, segs := [513 * 512] }).globals sample_globals)
        { bi_sector := 512, segs := [512] }) 512).is_next = true ∧
    (middle_layer_io
      ((middle_layer_io sample_globals (fun _ => true)
        { bi_sector := 0, segs := [513 * 512] }).globals sample_globals)
      (fun _ => true) { bi_sector := 512, segs := [512] }).trace?
      = some [Effect.submit_bio (16 * ZONE_SIZE + 513) 512] ∧
    16 * ZONE_SIZE + 513 ≠ 16 * ZONE_SIZE + 512 % ZONE_SIZE ∧
    (16 * ZONE_SIZE + 513) % ZONE_SIZE ≠ 512 % ZONE_SIZE := by
  refine ⟨by decide, by decide, by decide, by decide, by decide, by decide, by decide,
    by decide, by decide, by decide⟩

end TranslationWitness

/-! ## `middle_layer_io`: segments that cross a zone boundary -/

section CrossingEvaluation

set_option maxRecDepth 20000

/-- C5, evaluated on the code for `a = b = 10` (one segment of 20 sectors, 10240 bytes).
(1) The request that starts at in-zone offset `ZONE_SIZE - 10` of logical zone 0: the
loop translates it at sector `ZONE_SIZE - 10 + ((ZONE_SIZE - 10) >> 9)`, in zone 1, sees
no crossing, and fails it with `-EIO`; no sub-request is produced. (2) The request
that starts at sector 1071648751, for which the sector computed by the loop is
`ZONE_SIZE - 10`: the crossing is seen and `bio_split` is called with
`sectors = ZONE_SIZE - 10`, which is not below the 20 sectors of the request, so the
call ends on the `BUG_ON`; no sub-request is produced. -/
theorem C5_crossing_segment_evaluated :
    segment_sector (ZONE_SIZE - 10)
      (Loop.enter sample_globals { bi_sector := ZONE_SIZE - 10, segs := [10240] })
      = ZONE_SIZE + 2097141 ∧
    (middle_layer_io sample_globals (fun _ => true)
      { bi_sector := ZONE_SIZE - 10, segs := [10240] }).trace?
      = some [Effect.bio_endio (- EIO)] ∧
    segment_sector 1071648751
      (Loop.enter sample_globals { bi_sector := 1071648751, segs := [10240] })
      = ZONE_SIZE - 10 ∧
    bio_sectors (bio.bi_size { bi_sector := 1071648751, segs := [10240] }) = 20 ∧
    (middle_layer_io sample_globals (fun _ => true)
      { bi_sector := 1071648751, segs := [10240] }).is_bug = true ∧
    (middle_layer_io sample_globals (fun _ => false)
      { bi_sector := 1071648751, segs := [10240] }).is_bug = true := by
  refine ⟨by decide, by decide, by decide, by decide, by decide, by decide⟩

end CrossingEvaluation

/-! ## `middle_layer_io`: a request failed on a write-pointer mismatch -/

theorem Step.next_and_then (l : Loop) (k : Loop → Step) :
    (Step.next l).and_then k = k l := rfl

theorem Step.ret_and_then (l : Loop) (k : Loop → Step) :
    (Step.ret l).and_then k = Step.ret l := rfl

theorem Loop.enter_zones (g : Globals) (b : bio) : (Loop.enter g b).zones = g.zones := rfl

theorem Loop.enter_trace (g : Globals) (b : bio) : (Loop.enter g b).trace = [] := rfl

theorem segment_loop_nil (g : Globals) (alloc : Nat → Bool) (start_sector : Nat)
    (n : Nat) (l : Loop) :
    segment_loop g alloc start_sector n l [] = Step.next l := rfl

theorem segment_loop_cons (g : Globals) (alloc : Nat → Bool) (start_sector : Nat)
    (n : Nat) (l : Loop) (bv_len : Nat) (rest : List Nat) :
    segment_loop g alloc start_sector n l (bv_len :: rest)
      = (segment_body g (alloc n) start_sector l bv_len).and_then
          (fun l' => segment_loop g alloc start_sector (n + 1) (advance_iter l' bv_len) rest) :=
  rfl

theorem segment_loop_append (g : Globals) (alloc : Nat → Bool) (start_sector : Nat)
    (pre rest : List Nat) (n : Nat) (l : Loop) :
    segment_loop g alloc start_sector n l (pre ++ rest)
      = (segment_loop g alloc start_sector n l pre).and_then
          (fun l1 => segment_loop g alloc start_sector (n + pre.length) l1 rest) := by
  induction pre generalizing n l with
  | nil =>
    rw [List.nil_append, segment_loop_nil, List.length_nil, Nat.add_zero]
    rfl
  | cons x pre ih =>
    rw [List.cons_append, segment_loop_cons, segment_loop_cons]
    cases hb : segment_body g (alloc n) start_sector l x with
    | next l' =>
      have h1 : ∀ k : Loop → Step, (Step.next l').and_then k = k l' := fun _ => rfl
      rw [h1, h1, ih (n + 1) (advance_iter l' x), List.length_cons]
      have : n + 1 + pre.length = n + (pre.length + 1) := by omega
      rw [this]
    | ret l' => rfl
    | fault => rfl
    | bug => rfl

/-- The only `return` of the loop body is the write-pointer mismatch: the zone index
is in range, the segment stays within one zone (test of line 61), its sector differs
from the zone's write pointer, and the body only adds the `-EIO` completion. -/
theorem segment_body_ret (g : Globals) (split_ok : Bool) (start_sector : Nat) (l l' : Loop)
    (bv_len : Nat) (h : segment_body g split_ok start_sector l bv_len = Step.ret l') :
    segment_sector start_sector l % ZONE_SIZE + bv_len ≤ ZONE_SIZE ∧
    segment_sector start_sector l
      ≠ (l.zones (to_int ((segment_sector start_sector l / ZONE_SIZE : Nat) : Int)).toNat).write_pointer ∧
    l' = { l with trace := l.trace ++ [Effect.bio_endio (- EIO)] } := by
  unfold segment_body at h
  simp only [] at h
  split at h
  · cases h
  · split at h
    · split at h
      · cases h
      · split at h <;> cases h
    · split at h
      · rename_i h1 h2 h3
        injection h with h
        exact ⟨by omega, h3, h.symm⟩
      · cases h

/-- C6, as stated, fails: the request of two one-sector segments at sector 0, in the
state left by the initialisation, is failed with `-EIO` on its second segment (the
loop checks it at sector 0 against the write pointer 1), and the write pointer of
zone 0, which was 0 before the call, is 1 after it. -/
theorem C6_earlier_advance_kept :
    (sample_globals.zones 0).write_pointer = 0 ∧
    (segment_loop sample_globals (fun _ => true) 0 0
      (Loop.enter sample_globals { bi_sector := 0, segs := [512, 512] }) [512]).is_next = true ∧
    (segment_body sample_globals true 0
      ((segment_loop sample_globals (fun _ => true) 0 0
        (Loop.enter sample_globals { bi_sector := 0, segs := [512, 512] }) [512]).loop
        (Loop.enter sample_globals { bi_sector := 0, segs := [512, 512] })) 512).is_ret = true ∧
    (middle_layer_io sample_globals (fun _ => true)
      { bi_sector := 0, segs := [512, 512] }).trace? = some [Effect.bio_endio (- EIO)] ∧
    (middle_layer_io sample_globals (fun _ => true)
      { bi_sector := 0, segs := [512, 512] }).write_pointer? 0 = some 1 := by
  refine ⟨by decide, by decide, by decide, by decide, by decide⟩

/-- C6 (amended): for every request (with any number of segments) that
`middle_layer_io` fails because a segment's sector does not match its zone's write
pointer, the mismatching step changes no write pointer and forwards nothing: the
`zones` table after the call is the one left by the segments before the mismatching
one, and the effects are theirs followed by the `-EIO` completion; when the first
segment mismatches, every write pointer equals its value before the call and nothing
has been forwarded. -/
theorem C6_mismatch_step_atomic (g : Globals) (alloc : Nat → Bool) (b : bio)
    (pre post : List Nat) (bv_len : Nat) (l l' : Loop)
    (hsegs : b.segs = pre ++ bv_len :: post)
    (hrange : end_sector b < g.device_size)
    (hpre : segment_loop g alloc b.bi_sector 0 (Loop.enter g b) pre = Step.next l)
    (hmis : segment_body g (alloc pre.length) b.bi_sector l bv_len = Step.ret l') :
    middle_layer_io g alloc b
      = Outcome.done l.zones (l.trace ++ [Effect.bio_endio (- EIO)]) ∧
    (pre = [] →
      middle_layer_io g alloc b = Outcome.done g.zones [Effect.bio_endio (- EIO)]) := by
  have hl' := (segment_body_ret g _ _ l l' bv_len hmis).2.2
  have hloop : segment_loop g alloc b.bi_sector 0 (Loop.enter g b) b.segs = Step.ret l' := by
    rw [hsegs, segment_loop_append, hpre, Step.next_and_then, segment_loop_cons,
      Nat.zero_add, hmis, Step.ret_and_then]
  have hmain : middle_layer_io g alloc b
      = Outcome.done l.zones (l.trace ++ [Effect.bio_endio (- EIO)]) := by
    unfold middle_layer_io
    simp only [ge_iff_le]
    rw [if_neg (by omega), hloop, hl']
  refine ⟨hmain, fun hnil => ?_⟩
  subst hnil
  rw [segment_loop_nil] at hpre
  have hl : Loop.enter g b = l := Step.next.inj hpre
  rw [hmain, ← hl, Loop.enter_zones, Loop.enter_trace, List.nil_append]

section MismatchWitness

set_option maxRecDepth 20000

theorem C6_mismatch_step_atomic_witness :
    end_sector { bi_sector := 0, segs := [512, 512] } < sample_globals.device_size ∧
    middle_layer_io sample_globals (fun _ => true) { bi_sector := 0, segs := [512, 512] }
      = Outcome.done
          ((segment_loop sample_globals (fun _ => true) 0 0
            (Loop.enter sample_globals { bi_sector := 0, segs := [512, 512] }) [512]).loop
            (Loop.enter sample_globals { bi_sector := 0, segs := [512, 512] })).zones
          (((segment_loop sample_globals (fun _ => true) 0 0
            (Loop.enter sample_globals { bi_sector := 0, segs := [512, 512] }) [512]).loop
            (Loop.enter sample_globals { bi_sector := 0, segs := [512, 512] })).trace
            ++ [Effect.bio_endio (- EIO)]) :=
  ⟨by decide,
    (C6_mismatch_step_atomic sample_globals (fun _ => true)
      { bi_sector := 0, segs := [512, 512] } [512] [] 512 _ _ rfl (by decide)
      (Step.eq_next_of_is_next (Loop.enter sample_globals { bi_sector := 0, segs := [512, 512] })
        _ (by decide))
      (Step.eq_ret_of_is_ret (Loop.enter sample_globals { bi_sector := 0, segs := [512, 512] })
        _ (by decide))).1⟩

end MismatchWitness

/-! ## The write-pointer invariant -/

/-- A segment can only be accepted in zone 0 below `ZONE_SIZE`: its sector equals the
write pointer of the zone it indexes, which is 0 for every zone but zone 0. -/
theorem accepted_in_zone_zero (zs : Nat → zone) (hinv : ZonesInv zs) (s : Nat)
    (h0 : 0 ≤ to_int ((s / ZONE_SIZE : Nat) : Int))
    (h1 : to_int ((s / ZONE_SIZE : Nat) : Int) < (NUM_ZONES : Int))
    (heq : s = (zs (to_int ((s / ZONE_SIZE : Nat) : Int)).toNat).write_pointer) :
    (to_int ((s / ZONE_SIZE : Nat) : Int)).toNat = 0 ∧ s < ZONE_SIZE := by
  obtain ⟨hz0, hrest⟩ := hinv
  have hN : NUM_ZONES = 100 := rfl
  rw [hN] at h1
  by_cases hz : (to_int ((s / ZONE_SIZE : Nat) : Int)).toNat = 0
  · rw [hz] at heq
    rw [← heq] at hz0
    have hq : to_int ((s / ZONE_SIZE : Nat) : Int) = ((s / ZONE_SIZE : Nat) : Int) :=
      to_int_of_lt _ (by rw [ZONE_SIZE_eq] at hz0 ⊢; omega)
    rw [hq, Int.toNat_ofNat] at hz
    refine ⟨by rw [hq, Int.toNat_ofNat]; exact hz, ?_⟩
    rw [ZONE_SIZE_eq] at hz hz0 ⊢
    omega
  · exfalso
    have hw := hrest (to_int ((s / ZONE_SIZE : Nat) : Int)).toNat (by omega) (by rw [hN]; omega)
    rw [hw] at heq
    subst heq
    apply hz
    decide

/-- The loop body keeps the invariant of the `zones` table, whether it runs to its end
or returns. -/
theorem segment_body_zones_inv (g : Globals) (split_ok : Bool) (start_sector : Nat)
    (l l' : Loop) (bv_len : Nat) (hinv : ZonesInv l.zones)
    (h : segment_body g split_ok start_sector l bv_len = Step.next l' ∨
      segment_body g split_ok start_sector l bv_len = Step.ret l') :
    ZonesInv l'.zones := by
  rcases h with h | h
  · unfold segment_body at h
    simp only [] at h
    split at h
    · cases h
    · rename_i hidx
      split at h
      · split at h
        · cases h
        · split at h
          · have := Step.next.inj h
            subst this
            exact hinv
          · have := Step.next.inj h
            subst this
            exact hinv
      · rename_i hin
        split at h
        · cases h
        · rename_i heq
          have := Step.next.inj h
          subst this
          obtain ⟨hz, hs⟩ := accepted_in_zone_zero l.zones hinv _ (by omega) (by omega)
            (not_not.mp heq)
          have hwp := not_not.mp heq
          rw [hz] at hwp
          simp only [hz]
          refine ⟨?_, fun z hz1 hz2 => ?_⟩
          · simp only [Function.update_same]
            rw [← hwp, shiftRight_sector]
            rw [ZONE_SIZE_eq] at hs hin ⊢
            rw [U64_eq]
            omega
          · rw [Function.update_noteq (by omega)]
            exact hinv.2 z hz1 hz2
  · rw [(segment_body_ret g split_ok start_sector l l' bv_len h).2.2]
    exact hinv

theorem advance_iter_zones (l : Loop) (bv_len : Nat) : (advance_iter l bv_len).zones = l.zones :=
  rfl

theorem segment_loop_zones_inv (g : Globals) (alloc : Nat → Bool) (start_sector : Nat)
    (segs : List Nat) (n : Nat) (l l' : Loop) (hinv : ZonesInv l.zones)
    (h : segment_loop g alloc start_sector n l segs = Step.next l' ∨
      segment_loop g alloc start_sector n l segs = Step.ret l') :
    ZonesInv l'.zones := by
  induction segs generalizing n l with
  | nil =>
    rw [segment_loop_nil] at h
    rcases h with h | h
    · rw [← Step.next.inj h]
      exact hinv
    · cases h
  | cons x segs ih =>
    rw [segment_loop_cons] at h
    cases hb : segment_body g (alloc n) start_sector l x with
    | next l1 =>
      rw [hb, Step.next_and_then] at h
      refine ih (n + 1) (advance_iter l1 x) ?_ h
      rw [advance_iter_zones]
      exact segment_body_zones_inv g _ start_sector l l1 x hinv (Or.inl hb)
    | ret l1 =>
      rw [hb, Step.ret_and_then] at h
      rcases h with h | h
      · cases h
      · rw [← Step.ret.inj h]
        exact segment_body_zones_inv g _ start_sector l l1 x hinv (Or.inr hb)
    | fault =>
      rw [hb] at h
      rcases h with h | h <;> cases h
    | bug =>
      rw [hb] at h
      rcases h with h | h <;> cases h

/-- A returning call of `middle_layer_io` keeps the invariant of the `zones` table. -/
theorem middle_layer_io_zones_inv (g : Globals) (alloc : Nat → Bool) (b : bio)
    (zs : Nat → zone) (t : List Effect) (hinv : ZonesInv g.zones)
    (h : middle_layer_io g alloc b = Outcome.done zs t) : ZonesInv zs := by
  unfold middle_layer_io at h
  simp only [] at h
  split at h
  · rw [← (Outcome.done.inj h).1]
    exact hinv
  · cases hl : segment_loop g alloc b.bi_sector 0 (Loop.enter g b) b.segs with
    | next l =>
      rw [hl] at h
      rw [← (Outcome.done.inj h).1]
      exact segment_loop_zones_inv g alloc _ _ 0 _ l (by rw [Loop.enter_zones]; exact hinv)
        (Or.inl hl)
    | ret l =>
      rw [hl] at h
      rw [← (Outcome.done.inj h).1]
      exact segment_loop_zones_inv g alloc _ _ 0 _ l (by rw [Loop.enter_zones]; exact hinv)
        (Or.inr hl)
    | fault =>
      rw [hl] at h
      cases h
    | bug =>
      rw [hl] at h
      cases h

theorem init_zones_inv (rnd : Nat → Nat) (g : Globals) :
    ZonesInv (init_mapping_table_and_zones rnd g).zones := by
  obtain ⟨_, _, h3⟩ := init_tables rnd g
  refine ⟨?_, fun z _ hz => ?_⟩
  · rw [h3 0 (by decide)]
    exact Nat.zero_le _
  · rw [h3 z hz]

theorem reachable_zones_inv (g : Globals) (h : Reachable g) : ZonesInv g.zones := by
  induction h with
  | init rnd g => exact init_zones_inv rnd g
  | io g alloc b zs t _ hio ih => exact middle_layer_io_zones_inv g alloc b zs t ih hio

/-- C9: in every state reachable from the state produced by
`init_mapping_table_and_zones` through any sequence of returning `middle_layer_io`
calls (on any requests), every zone `z` of `0..NUM_ZONES` satisfies
`0 <= zones[z].write_pointer <= ZONE_SIZE`. -/
theorem C9_write_pointer_range (g : Globals) (h : Reachable g) (z : Nat)
    (hz : z < NUM_ZONES) :
    0 ≤ (g.zones z).write_pointer ∧ (g.zones z).write_pointer ≤ ZONE_SIZE := by
  obtain ⟨h0, hrest⟩ := reachable_zones_inv g h
  refine ⟨Nat.zero_le _, ?_⟩
  by_cases hz0 : z = 0
  · subst hz0
    exact h0
  · rw [hrest z (by omega) hz]
    exact Nat.zero_le _

theorem reachable_globals (g : Globals) (h : Reachable g) (alloc : Nat → Bool) (b : bio) :
    Reachable ((middle_layer_io g alloc b).globals g) := by
  cases hio : middle_layer_io g alloc b with
  | done zs t => exact Reachable.io g alloc b zs t h hio
  | fault => exact h
  | bug => exact h

section RangeWitness

set_option maxRecDepth 20000

theorem C9_write_pointer_range_witness :
    0 < NUM_ZONES ∧
    (((middle_layer_io sample_globals (fun _ => true)
      { bi_sector := 0, segs := [256000] }).globals sample_globals).zones 0).write_pointer
      = 500 ∧
    (0 ≤ (((middle_layer_io sample_globals (fun _ => true)
        { bi_sector := 0, segs := [256000] }).globals sample_globals).zones 0).write_pointer ∧
      (((middle_layer_io sample_globals (fun _ => true)
        { bi_sector := 0, segs := [256000] }).globals sample_globals).zones 0).write_pointer
        ≤ ZONE_SIZE) :=
  ⟨by decide, by decide,
    C9_write_pointer_range _
      (reachable_globals _ (Reachable.init sample_rnd zero_globals) (fun _ => true)
        { bi_sector := 0, segs := [256000] }) 0 (by decide)⟩

theorem C10_init_zone_fields_witness :
    7 < NUM_ZONES ∧
    (sample_globals.zones 7).write_pointer = 0 ∧
    (sample_globals.zones 7).zone_id = 7 ∧
    (sample_globals.mapping_table 7).src_zone = 7 :=
  ⟨by decide, C10_init_zone_fields sample_rnd zero_globals 7 (by decide)⟩

end RangeWitness

/-! ## `end_bio` -/

theorem completions_append (t u : List EndEffect) :
    completions (t ++ u) = completions t + completions u := by
  simp [completions, List.filter_append]

theorem completions_bio_put (bs : List sub_bio) :
    completions (bs.map (fun b => EndEffect.bio_put b.id)) = 0 := by
  induction bs with
  | nil => rfl
  | cons b bs ih =>
    rw [List.map_cons]
    have : EndEffect.bio_put b.id :: bs.map (fun b => EndEffect.bio_put b.id)
        = [EndEffect.bio_put b.id] ++ bs.map (fun b => EndEffect.bio_put b.id) := rfl
    rw [this, completions_append, ih]
    rfl

/-- A call of `end_bio` while the counter is above 1 only releases the sub-request
and decrements the counter. -/
theorem end_bio_not_last (s : EndState) (b : sub_bio) (m : Nat)
    (hrem : s.parent.bi_remaining = (m : Int)) (h2 : 2 ≤ m) (hm : m < 2147483648) :
    end_bio s b
      = { parent := { s.parent with bi_remaining := ((m - 1 : Nat) : Int) },
          trace := s.trace ++ [EndEffect.bio_put b.id] } := by
  have hdec : to_int ((m : Int) - 1) = ((m - 1 : Nat) : Int) := by
    unfold to_int
    omega
  unfold end_bio atomic_dec_and_test
  simp only [hrem, hdec]
  rw [if_neg]
  simp only [decide_eq_true_eq]
  omega

/-- The call of `end_bio` that finds the counter at 1 releases the sub-request, brings
the counter to 0 and completes the parent with the parent's `bi_status`. -/
theorem end_bio_last (s : EndState) (b : sub_bio)
    (hrem : s.parent.bi_remaining = 1) :
    end_bio s b
      = { parent := { s.parent with bi_remaining := 0 },
          trace := s.trace ++ [EndEffect.bio_put b.id]
            ++ [EndEffect.bio_endio s.parent.bi_status] } := by
  have hdec : to_int ((1 : Int) - 1) = 0 := by decide
  unfold end_bio atomic_dec_and_test
  simp only [hrem, hdec]
  rw [if_pos (by decide)]

theorem end_bios_before_last (bs : List sub_bio) (s : EndState) (m : Nat)
    (hrem : s.parent.bi_remaining = (m : Int)) (hlen : bs.length < m) (hm : m < 2147483648) :
    end_bios s bs
      = { parent := { s.parent with bi_remaining := ((m - bs.length : Nat) : Int) },
          trace := s.trace ++ bs.map (fun b => EndEffect.bio_put b.id) } := by
  induction bs generalizing s m with
  | nil =>
    simp only [end_bios, List.foldl_nil, List.length_nil, Nat.sub_zero, List.map_nil,
      List.append_nil]
    rw [← hrem]
  | cons b bs ih =>
    rw [List.length_cons] at hlen
    have hstep := end_bio_not_last s b m hrem (by omega) hm
    unfold end_bios at ih ⊢
    rw [List.foldl_cons, hstep, ih _ (m - 1) rfl (by omega) (by omega)]
    simp only [List.map_cons, List.append_assoc, List.singleton_append, List.length_cons]
    have : m - 1 - bs.length = m - (bs.length + 1) := by omega
    rw [this]

/-- The whole trace of `k` calls of `end_bio` on a parent whose counter starts at `k`:
the sub-requests are released in the order of the calls, then the parent is completed
once, with the `bi_status` the parent had. -/
theorem end_bios_all (bs : List sub_bio) (s : EndState) (m : Nat)
    (hrem : s.parent.bi_remaining = (m : Int)) (hlen : bs.length = m) (h1 : 1 ≤ m)
    (hm : m < 2147483648) :
    end_bios s bs
      = { parent := { s.parent with bi_remaining := 0 },
          trace := s.trace ++ bs.map (fun b => EndEffect.bio_put b.id)
            ++ [EndEffect.bio_endio s.parent.bi_status] } := by
  rcases List.eq_nil_or_concat bs with hnil | ⟨init, x, hbs⟩
  · subst hnil
    simp at hlen
    omega
  · subst hbs
    rw [List.concat_eq_append] at hlen ⊢
    rw [List.length_append, List.length_singleton] at hlen
    unfold end_bios
    rw [List.foldl_append, List.foldl_cons, List.foldl_nil]
    have hinit := end_bios_before_last init s m hrem (by omega) hm
    unfold end_bios at hinit
    rw [hinit, end_bio_last _ x (by simp only []; omega)]
    simp only [List.map_append, List.map_cons, List.map_nil, List.append_assoc]

/-- C7: for a parent request whose `bi_remaining` counter starts at `k >= 1` (a value
of the 32-bit counter) and any order `bs` of the `k` calls of `end_bio` for its
sub-requests, the parent's completion (`bio_endio` on the parent) is invoked exactly
once, by the `k`-th call, which brings the counter to zero, and by none of the first
`k - 1` calls. -/
theorem C7_parent_completed_once (p : parent_bio) (k : Nat) (bs : List sub_bio)
    (hk : 1 ≤ k) (hint : k < 2147483648) (hrem : p.bi_remaining = (k : Int))
    (hlen : bs.length = k) :
    (∀ n, n < k → completions (end_bios { parent := p, trace := [] } (bs.take n)).trace = 0) ∧
    completions (end_bios { parent := p, trace := [] } bs).trace = 1 ∧
    (∃ status, (end_bios { parent := p, trace := [] } bs).trace.getLast?
      = some (EndEffect.bio_endio status)) ∧
    (end_bios { parent := p, trace := [] } bs).parent.bi_remaining = 0 := by
  refine ⟨fun n hn => ?_, ?_, ?_, ?_⟩
  · have hl : (bs.take n).length < k := by
      rw [List.length_take]
      omega
    rw [end_bios_before_last (bs.take n) { parent := p, trace := [] } k hrem hl hint]
    simp only [List.nil_append]
    exact completions_bio_put _
  · rw [end_bios_all bs { parent := p, trace := [] } k hrem hlen hk hint]
    simp only [List.nil_append]
    rw [completions_append, completions_bio_put]
    rfl
  · rw [end_bios_all bs { parent := p, trace := [] } k hrem hlen hk hint]
    exact ⟨p.bi_status, by simp⟩
  · rw [end_bios_all bs { parent := p, trace := [] } k hrem hlen hk hint]

theorem C7_parent_completed_once_witness :
    completions (end_bios { parent := { bi_remaining := 3, bi_status := 0 }, trace := [] }
      [{ id := 2, bi_status := 0 }, { id := 3, bi_status := -5 },
        { id := 1, bi_status := 0 }]).trace = 1 :=
  (C7_parent_completed_once { bi_remaining := 3, bi_status := 0 } 3
    [{ id := 2, bi_status := 0 }, { id := 3, bi_status := -5 }, { id := 1, bi_status := 0 }]
    (by decide) (by decide) rfl rfl).2.1

/-- C8, as stated, fails: a parent with `bi_status` 0 (success) is split into three
sub-requests, of which sub-request #3 completes with `-EIO` and the others with
success; whether #3 reports last or first, `end_bio` completes the parent with
status 0, not with the failure. -/
theorem C8_failure_not_recorded :
    (end_bios { parent := { bi_remaining := 3, bi_status := 0 }, trace := [] }
      [{ id := 1, bi_status := 0 }, { id := 2, bi_status := 0 },
        { id := 3, bi_status := - EIO }]).trace
      = [EndEffect.bio_put 1, EndEffect.bio_put 2, EndEffect.bio_put 3,
          EndEffect.bio_endio 0] ∧
    (end_bios { parent := { bi_remaining := 3, bi_status := 0 }, trace := [] }
      [{ id := 3, bi_status := - EIO }, { id := 1, bi_status := 0 },
        { id := 2, bi_status := 0 }]).trace
      = [EndEffect.bio_put 3, EndEffect.bio_put 1, EndEffect.bio_put 2,
          EndEffect.bio_endio 0] := by
  refine ⟨by decide, by decide⟩

/-- C8 (amended): for a parent split into `k` sub-requests and every completion
arrival order `bs`, whatever statuses the sub-requests complete with, `end_bio`
completes the parent once, after the `k` releases, with the value that the parent's
own `bi_status` field had, and leaves that field as it was: no call overwrites a
failure recorded there, and no call records a sub-request's status there. -/
theorem C8_parent_status_reported (p : parent_bio) (k : Nat) (bs : List sub_bio)
    (hk : 1 ≤ k) (hint : k < 2147483648) (hrem : p.bi_remaining = (k : Int))
    (hlen : bs.length = k) :
    (end_bios { parent := p, trace := [] } bs).trace
      = bs.map (fun b => EndEffect.bio_put b.id) ++ [EndEffect.bio_endio p.bi_status] ∧
    (end_bios { parent := p, trace := [] } bs).parent.bi_status = p.bi_status := by
  rw [end_bios_all bs { parent := p, trace := [] } k hrem hlen hk hint]
  exact ⟨by simp only [List.nil_append], rfl⟩

theorem C8_parent_status_reported_witness :
    (end_bios { parent := { bi_remaining := 3, bi_status := - EIO }, trace := [] }
      [{ id := 3, bi_status := - EIO }, { id := 1, bi_status := 0 },
        { id := 2, bi_status := 0 }]).trace
      = [EndEffect.bio_put 3, EndEffect.bio_put 1, EndEffect.bio_put 2,
          EndEffect.bio_endio (- EIO)] :=
  (C8_parent_status_reported { bi_remaining := 3, bi_status := - EIO } 3
    [{ id := 3, bi_status := - EIO }, { id := 1, bi_status := 0 }, { id := 2, bi_status := 0 }]
    (by decide) (by decide) rfl rfl).1

/-! ## `middle_layer_io`: the sector of a segment -/

/-- The sector at which the loop translates and validates the first segment of a
request that starts at sector `S`: `S + (S >> 9)` modulo `2 ^ 64`. -/
theorem segment_sector_enter (g : Globals) (b : bio) :
    segment_sector b.bi_sector (Loop.enter g b) = (b.bi_sector + b.bi_sector / 512) % U64 := by
  unfold segment_sector
  rw [shiftRight_sector]
  rfl

section SectorEvaluation

set_option maxRecDepth 20000

/-- C11, evaluated on the code. (1) The first segment of the request that starts at
sector `S = 512` is translated and validated at sector 513, not at `S`. (2) For the
request at sector 0 with two segments of one sector each, the second segment is
translated and validated at sector 0, not at `S + l_0 = 1`. -/
theorem C11_segment_sector_evaluated :
    segment_sector 512 (Loop.enter sample_globals { bi_sector := 512, segs := [512] }) = 513 ∧
    (segment_loop sample_globals (fun _ => true) 0 0
      (Loop.enter sample_globals { bi_sector := 0, segs := [512, 512] }) [512]).is_next = true ∧
    segment_sector 0
      ((segment_loop sample_globals (fun _ => true) 0 0
        (Loop.enter sample_globals { bi_sector := 0, segs := [512, 512] }) [512]).loop
        (Loop.enter sample_globals { bi_sector := 0, segs := [512, 512] })) = 0 := by
  refine ⟨by decide, by decide, by decide⟩

/-- C12, evaluated on the code. The request at sector 1 with one segment of `2 ^ 30`
bytes straddles the end of zone 0 by the test of line 61 (in-zone offset 1). (1) In
the state left by the initialisation zone 0 has write pointer 0, not 1, yet the head
is split off and forwarded, the rest of the request is forwarded, and no I/O error
is reported. (2) After a one-sector request at sector 0, zone 0 has write pointer 1;
the same straddling request is forwarded and the write pointer of zone 0 is still 1
after the call, not `ZONE_SIZE`. -/
theorem C12_crossing_head_evaluated :
    segment_sector 1 (Loop.enter sample_globals { bi_sector := 1, segs := [2 ^ 30] }) = 1 ∧
    1 % ZONE_SIZE + 2 ^ 30 > ZONE_SIZE ∧
    (sample_globals.zones 0).write_pointer = 0 ∧
    (middle_layer_io sample_globals (fun _ => true) { bi_sector := 1, segs := [2 ^ 30] }).trace?
      = some [Effect.submit_split (16 * ZONE_SIZE + 1) 512,
          Effect.submit_bio 2 (2 ^ 30 - 512)] ∧
    (middle_layer_io sample_globals (fun _ => true)
      { bi_sector := 1, segs := [2 ^ 30] }).write_pointer? 0 = some 0 ∧
    (((middle_layer_io sample_globals (fun _ => true)
      { bi_sector := 0, segs := [512] }).globals sample_globals).zones 0).write_pointer = 1 ∧
    (middle_layer_io
      ((middle_layer_io sample_globals (fun _ => true)
        { bi_sector := 0, segs := [512] }).globals sample_globals)
      (fun _ => true) { bi_sector := 1, segs := [2 ^ 30] }).trace?
      = some [Effect.submit_split (16 * ZONE_SIZE + 1) 512,
          Effect.submit_bio 2 (2 ^ 30 - 512)] ∧
    (middle_layer_io
      ((middle_layer_io sample_globals (fun _ => true)
        { bi_sector := 0, segs := [512] }).globals sample_globals)
      (fun _ => true) { bi_sector := 1, segs := [2 ^ 30] }).write_pointer? 0 = some 1 := by
  refine ⟨by decide, by decide, by decide, by decide, by decide, by decide, by decide,
    by decide⟩

/-- C16, evaluated on the code. The device has exactly `NUM_ZONES * ZONE_SIZE` sectors;
the one-sector request at its last sector `S = NUM_ZONES * ZONE_SIZE - 1` passes the
bounds check, the loop computes the sector `S + (S >> 9)` for its segment, whose zone
index is `NUM_ZONES`, and `mapping_table` is read outside its range. -/
theorem C16_zone_index_evaluated :
    sample_globals.device_size ≤ NUM_ZONES * ZONE_SIZE ∧
    end_sector { bi_sector := NUM_ZONES * ZONE_SIZE - 1, segs := [512] }
      < sample_globals.device_size ∧
    segment_sector (NUM_ZONES * ZONE_SIZE - 1)
      (Loop.enter sample_globals { bi_sector := NUM_ZONES * ZONE_SIZE - 1, segs := [512] })
      / ZONE_SIZE = NUM_ZONES ∧
    (middle_layer_io sample_globals (fun _ => true)
      { bi_sector := NUM_ZONES * ZONE_SIZE - 1, segs := [512] }).is_fault = true := by
  refine ⟨by decide, by decide, by decide, by decide⟩

end SectorEvaluation
/-! ## Initialisation: the shuffle loop -/

theorem shuffle_foldl_calls (rnd : Nat → Nat) (is : List Nat) (s : (Nat → Int) × Nat) :
    (is.foldl (shuffle_body rnd) s).2 = s.2 + is.length := by
  induction is generalizing s with
  | nil => simp
  | cons i is ih =>
    rw [List.foldl_cons, ih, List.length_cons]
    simp only [shuffle_body]
    omega

theorem mem_shuffle_indices (i : Nat) : i ∈ shuffle_indices ↔ 1 ≤ i ∧ i ≤ NUM_ZONES - 1 := by
  simp only [shuffle_indices, List.mem_reverse, List.mem_range'_1, NUM_ZONES]
  omega

/-- C15: in the shuffle loop of `init_mapping_table_and_zones`, `i` takes the values
from `NUM_ZONES - 1` down to 1; for every such `i` and every value returned by
`get_random_int`, the drawn index `j = get_random_int() % (i + 1)` satisfies
`0 <= j <= i`, so both swapped positions are valid indices of the array of
`NUM_ZONES` elements; and the loop makes exactly `NUM_ZONES - 1` draws and swaps. -/
theorem C15_shuffle_indices_valid (rnd : Nat → Nat) (d : Nat → Int) (call i : Nat)
    (hi : i ∈ shuffle_indices) :
    (1 ≤ i ∧ i ≤ NUM_ZONES - 1) ∧
    (0 ≤ get_random_int rnd call % (i + 1) ∧ get_random_int rnd call % (i + 1) ≤ i) ∧
    (i < NUM_ZONES ∧ get_random_int rnd call % (i + 1) < NUM_ZONES) ∧
    shuffle_indices.head? = some (NUM_ZONES - 1) ∧
    shuffle_indices.getLast? = some 1 ∧
    shuffle_indices.length = NUM_ZONES - 1 ∧
    (shuffle_loop rnd d).2 = NUM_ZONES - 1 := by
  have hr := (mem_shuffle_indices i).mp hi
  have hj := get_random_index_le rnd call i
  have hN : NUM_ZONES = 100 := rfl
  refine ⟨hr, ⟨Nat.zero_le _, hj⟩, ⟨by omega, by omega⟩, by decide, by decide, by decide, ?_⟩
  have hl : shuffle_indices.length = NUM_ZONES - 1 := by decide
  unfold shuffle_loop
  rw [shuffle_foldl_calls, hl]
  simp

theorem C15_shuffle_indices_valid_witness :
    99 ∈ shuffle_indices ∧
    get_random_int sample_rnd 0 % (99 + 1) ≤ 99 ∧
    (shuffle_loop sample_rnd (fill_dest_zones (fun _ => 0))).2 = NUM_ZONES - 1 :=
  ⟨by decide,
    (C15_shuffle_indices_valid sample_rnd (fill_dest_zones (fun _ => 0)) 0 99 (by decide)).2.1.2,
    (C15_shuffle_indices_valid sample_rnd (fill_dest_zones (fun _ => 0)) 0 99
      (by decide)).2.2.2.2.2.2⟩

/-! ## Address translation is injective -/

/-- C18: given the mapping table produced by `init_mapping_table_and_zones`, for any
two logical sectors `s1 != s2` whose zone indices are in `0..NUM_ZONES`,
`dest_zone(s1 / ZONE_SIZE) * ZONE_SIZE + s1 % ZONE_SIZE` differs from
`dest_zone(s2 / ZONE_SIZE) * ZONE_SIZE + s2 % ZONE_SIZE`, and the translated sector is
again in `0 .. NUM_ZONES * ZONE_SIZE`. -/
theorem C18_translation_injective (rnd : Nat → Nat) (g : Globals) (s1 s2 : Nat)
    (h1 : s1 / ZONE_SIZE < NUM_ZONES) (h2 : s2 / ZONE_SIZE < NUM_ZONES) (hne : s1 ≠ s2) :
    ((init_mapping_table_and_zones rnd g).mapping_table (s1 / ZONE_SIZE)).dest_zone
        * (ZONE_SIZE : Int) + ((s1 % ZONE_SIZE : Nat) : Int)
      ≠ ((init_mapping_table_and_zones rnd g).mapping_table (s2 / ZONE_SIZE)).dest_zone
        * (ZONE_SIZE : Int) + ((s2 % ZONE_SIZE : Nat) : Int) ∧
    0 ≤ ((init_mapping_table_and_zones rnd g).mapping_table (s1 / ZONE_SIZE)).dest_zone
        * (ZONE_SIZE : Int) + ((s1 % ZONE_SIZE : Nat) : Int) ∧
    ((init_mapping_table_and_zones rnd g).mapping_table (s1 / ZONE_SIZE)).dest_zone
        * (ZONE_SIZE : Int) + ((s1 % ZONE_SIZE : Nat) : Int)
      < ((NUM_ZONES * ZONE_SIZE : Nat) : Int) := by
  obtain ⟨σ, hfix, hval⟩ := init_dest_zone_perm rnd g
  rw [ZONE_SIZE_eq] at h1 h2 ⊢
  rw [hval _ h1, hval _ h2]
  have ha := perm_lt_of_fix σ hfix _ h1
  have hb := perm_lt_of_fix σ hfix _ h2
  have hN : NUM_ZONES = 100 := rfl
  rw [hN] at ha hb h1 h2 ⊢
  refine ⟨fun heq => ?_, by omega, by omega⟩
  have hσ : σ (s1 / 1073741824) = σ (s2 / 1073741824) := by omega
  have hz := σ.injective hσ
  omega

theorem C18_translation_injective_witness :
    ((init_mapping_table_and_zones sample_rnd zero_globals).mapping_table
        (5 / ZONE_SIZE)).dest_zone * (ZONE_SIZE : Int) + ((5 % ZONE_SIZE : Nat) : Int)
      ≠ ((init_mapping_table_and_zones sample_rnd zero_globals).mapping_table
          ((ZONE_SIZE + 5) / ZONE_SIZE)).dest_zone * (ZONE_SIZE : Int)
        + (((ZONE_SIZE + 5) % ZONE_SIZE : Nat) : Int) :=
  (C18_translation_injective sample_rnd zero_globals 5 (ZONE_SIZE + 5) (by decide) (by decide)
    (by decide)).1

/-! ## Only zone 0 accepts -/

/-- The body on a segment that stays within one zone, in a zone of the tables, whose
sector differs from the zone's write pointer: it completes the request with an I/O
error and returns. -/
theorem segment_body_mismatch (g : Globals) (split_ok : Bool) (start_sector : Nat) (l : Loop)
    (bv_len : Nat)
    (hidx : segment_sector start_sector l / ZONE_SIZE < NUM_ZONES)
    (hin : segment_sector start_sector l % ZONE_SIZE + bv_len ≤ ZONE_SIZE)
    (hne : segment_sector start_sector l
      ≠ (l.zones (segment_sector start_sector l / ZONE_SIZE)).write_pointer) :
    segment_body g split_ok start_sector l bv_len
      = Step.ret { l with trace := l.trace ++ [Effect.bio_endio (- EIO)] } := by
  have hN : NUM_ZONES = 100 := rfl
  rw [hN] at hidx
  unfold segment_body
  simp only []
  rw [ZONE_SIZE_eq] at hidx hin hne ⊢
  rw [to_int_of_lt _ (by omega), Int.toNat_ofNat]
  rw [if_neg (by omega), if_neg (by omega), if_pos hne]

/-- In every state reachable from the initialisation, every zone with index `>= 1`
still has write pointer 0; a request whose first segment the loop handles (sector of
line 53, test of line 61) inside a zone of index `1..NUM_ZONES` without crossing is
completed with an I/O error, nothing is forwarded and the `zones` table is left as it
was; and a segment can only be accepted in zone 0. -/
theorem reachable_only_zone_zero_accepts (g : Globals) (h : Reachable g) :
    (∀ z, 1 ≤ z → z < NUM_ZONES → (g.zones z).write_pointer = 0) ∧
    (∀ (alloc : Nat → Bool) (b : bio) (bv_len : Nat) (rest : List Nat),
      b.segs = bv_len :: rest →
      1 ≤ segment_sector b.bi_sector (Loop.enter g b) / ZONE_SIZE →
      segment_sector b.bi_sector (Loop.enter g b) / ZONE_SIZE < NUM_ZONES →
      segment_sector b.bi_sector (Loop.enter g b) % ZONE_SIZE + bv_len ≤ ZONE_SIZE →
      middle_layer_io g alloc b = Outcome.done g.zones [Effect.bio_endio (- EIO)]) ∧
    (∀ (start_sector : Nat) (l : Loop) (bv_len z : Nat),
      l.zones = g.zones → Accepted start_sector l bv_len z → z = 0) := by
  have hinv := reachable_zones_inv g h
  refine ⟨hinv.2, ?_, ?_⟩
  · intro alloc b bv_len rest hsegs hz1 hz2 hin
    unfold middle_layer_io
    simp only [ge_iff_le]
    by_cases hb : g.device_size ≤ end_sector b
    · rw [if_pos hb]
    · rw [if_neg hb, hsegs, segment_loop_cons]
      have hne : segment_sector b.bi_sector (Loop.enter g b)
          ≠ ((Loop.enter g b).zones
              (segment_sector b.bi_sector (Loop.enter g b) / ZONE_SIZE)).write_pointer := by
        rw [Loop.enter_zones, hinv.2 _ hz1 hz2]
        rw [ZONE_SIZE_eq] at hz1
        omega
      rw [segment_body_mismatch g _ _ _ _ hz2 hin hne, Step.ret_and_then]
      simp only [Loop.enter, List.nil_append]
  · intro start_sector l bv_len z hl hacc
    obtain ⟨h0, h1, hz, _, heq⟩ := hacc
    rw [← hz] at heq
    rw [← hl] at hinv
    have := (accepted_in_zone_zero l.zones hinv _ h0 h1 heq).1
    omega
section ZoneZeroWitness

set_option maxRecDepth 20000

theorem reachable_only_zone_zero_accepts_example :
    (sample_globals.zones 1).write_pointer = 0 ∧
    middle_layer_io sample_globals (fun _ => true) { bi_sector := ZONE_SIZE, segs := [512] }
      = Outcome.done sample_globals.zones [Effect.bio_endio (- EIO)] :=
  ⟨(reachable_only_zone_zero_accepts sample_globals (Reachable.init sample_rnd zero_globals)).1 1
      (by decide) (by decide),
    (reachable_only_zone_zero_accepts sample_globals (Reachable.init sample_rnd zero_globals)).2.1
      (fun _ => true) { bi_sector := ZONE_SIZE, segs := [512] } 512 [] rfl
      (by decide) (by decide) (by decide)⟩

/-- C17, evaluated on the code. In the state left by the initialisation, the
one-sector request at sector 2143297520 is in range and its segment lies wholly inside
logical zone 1 (in-zone offset 1069555696). The loop handles it at sector
`2 * ZONE_SIZE - 1` (line 53), the test of line 61 finds a crossing, and `bio_split` is
called with `sectors = ZONE_SIZE - 1`, not below the one sector of the request: the
call stops on the `BUG_ON` and the request is not completed with an I/O error. -/
theorem C17_zone_one_request_evaluated :
    2143297520 / ZONE_SIZE = 1 ∧
    2143297520 % ZONE_SIZE = 1069555696 ∧
    2143297520 % ZONE_SIZE + 1 ≤ ZONE_SIZE ∧
    end_sector { bi_sector := 2143297520, segs := [512] } < sample_globals.device_size ∧
    segment_sector 2143297520
      (Loop.enter sample_globals { bi_sector := 2143297520, segs := [512] })
      = 2 * ZONE_SIZE - 1 ∧
    (2 * ZONE_SIZE - 1) % ZONE_SIZE + 512 > ZONE_SIZE ∧
    bio_sectors (bio.bi_size { bi_sector := 2143297520, segs := [512] }) = 1 ∧
    (middle_layer_io sample_globals (fun _ => true)
      { bi_sector := 2143297520, segs := [512] }).is_bug = true ∧
    (middle_layer_io sample_globals (fun _ => false)
      { bi_sector := 2143297520, segs := [512] }).is_bug = true ∧
    (middle_layer_io sample_globals (fun _ => true)
      { bi_sector := 2143297520, segs := [512] }).trace? = none := by
  refine ⟨by decide, by decide, by decide, by decide, by decide, by decide, by decide,
    by decide, by decide, by decide⟩

end ZoneZeroWitness

/-! ## Write pointers never decrease -/

theorem segment_sector_lt (start_sector : Nat) (l : Loop) :
    segment_sector start_sector l < 18446744073709551616 := by
  unfold segment_sector
  rw [U64_eq]
  exact Nat.mod_lt _ (by omega)

/-- A body that ran to its end lowered no write pointer, and changed the write pointer
of a zone only by accepting the segment in that zone. -/
theorem segment_body_next_mono (g : Globals) (split_ok : Bool) (start_sector : Nat)
    (l l' : Loop) (bv_len : Nat)
    (h : segment_body g split_ok start_sector l bv_len = Step.next l') (z : Nat) :
    (l.zones z).write_pointer ≤ (l'.zones z).write_pointer ∧
    ((l'.zones z).write_pointer ≠ (l.zones z).write_pointer →
      Accepted start_sector l bv_len z) := by
  unfold segment_body at h
  simp only [] at h
  split at h
  · cases h
  · rename_i hidx
    split at h
    · split at h
      · cases h
      · split at h
        · have := Step.next.inj h
          subst this
          exact ⟨Nat.le_refl _, fun hne => absurd rfl hne⟩
        · have := Step.next.inj h
          subst this
          exact ⟨Nat.le_refl _, fun hne => absurd rfl hne⟩
    · rename_i hin
      split at h
      · cases h
      · rename_i heq
        have hwp := not_not.mp heq
        have hlt := segment_sector_lt start_sector l
        have := Step.next.inj h
        subst this
        simp only []
        by_cases hz : (to_int ((segment_sector start_sector l / ZONE_SIZE : Nat) : Int)).toNat = z
        · rw [← hz]
          simp only [Function.update_same]
          refine ⟨?_, fun _ => ?_⟩
          · rw [← hwp, shiftRight_sector, U64_eq]
            rw [ZONE_SIZE_eq] at hin
            omega
          · unfold Accepted
            exact ⟨by omega, by omega, rfl, by omega, hwp⟩
        · rw [Function.update_noteq (fun h => hz h.symm)]
          exact ⟨Nat.le_refl _, fun hne => absurd rfl hne⟩

theorem segment_loop_mono (g : Globals) (alloc : Nat → Bool) (start_sector : Nat)
    (segs : List Nat) (n : Nat) (l l' : Loop)
    (h : segment_loop g alloc start_sector n l segs = Step.next l' ∨
      segment_loop g alloc start_sector n l segs = Step.ret l') (z : Nat) :
    (l.zones z).write_pointer ≤ (l'.zones z).write_pointer ∧
    ((l'.zones z).write_pointer ≠ (l.zones z).write_pointer →
      ∃ pre bv_len post l1, segs = pre ++ bv_len :: post ∧
        segment_loop g alloc start_sector n l pre = Step.next l1 ∧
        Accepted start_sector l1 bv_len z) := by
  induction segs generalizing n l with
  | nil =>
    rw [segment_loop_nil] at h
    rcases h with h | h
    · rw [← Step.next.inj h]
      exact ⟨Nat.le_refl _, fun hne => absurd rfl hne⟩
    · cases h
  | cons x segs ih =>
    rw [segment_loop_cons] at h
    cases hb : segment_body g (alloc n) start_sector l x with
    | next l1 =>
      rw [hb, Step.next_and_then] at h
      obtain ⟨hle1, hacc1⟩ := segment_body_next_mono g _ start_sector l l1 x hb z
      obtain ⟨hle2, hacc2⟩ := ih (n + 1) (advance_iter l1 x) h
      rw [advance_iter_zones] at hle2 hacc2
      refine ⟨Nat.le_trans hle1 hle2, fun hne => ?_⟩
      by_cases hsame : (l1.zones z).write_pointer = (l.zones z).write_pointer
      · rw [← hsame] at hne
        obtain ⟨pre, y, post, l2, hsegs, hpre, hacc⟩ := hacc2 hne
        refine ⟨x :: pre, y, post, l2, by rw [hsegs]; rfl, ?_, hacc⟩
        rw [segment_loop_cons, hb, Step.next_and_then]
        exact hpre
      · exact ⟨[], x, segs, l, rfl, segment_loop_nil g alloc start_sector n l, hacc1 hsame⟩
    | ret l1 =>
      rw [hb, Step.ret_and_then] at h
      rcases h with h | h
      · cases h
      · rw [← Step.ret.inj h, (segment_body_ret g _ start_sector l l1 x hb).2.2]
        exact ⟨Nat.le_refl _, fun hne => absurd rfl hne⟩
    | fault =>
      rw [hb] at h
      rcases h with h | h <;> cases h
    | bug =>
      rw [hb] at h
      rcases h with h | h <;> cases h

/-- C13: a zone's write pointer never decreases: for every state, every request and
every zone `z`, `zones[z].write_pointer` after a returning call of `middle_layer_io`
is `>=` its value before, and it differs from the value before only if a segment of
that request was accepted in zone `z` when the loop reached it. -/
theorem C13_write_pointer_monotone (g : Globals) (alloc : Nat → Bool) (b : bio)
    (zs : Nat → zone) (t : List Effect)
    (h : middle_layer_io g alloc b = Outcome.done zs t) (z : Nat) :
    (g.zones z).write_pointer ≤ (zs z).write_pointer ∧
    ((zs z).write_pointer ≠ (g.zones z).write_pointer →
      ∃ pre bv_len post l, b.segs = pre ++ bv_len :: post ∧
        segment_loop g alloc b.bi_sector 0 (Loop.enter g b) pre = Step.next l ∧
        Accepted b.bi_sector l bv_len z) := by
  unfold middle_layer_io at h
  simp only [] at h
  split at h
  · rw [← (Outcome.done.inj h).1]
    exact ⟨Nat.le_refl _, fun hne => absurd rfl hne⟩
  · cases hl : segment_loop g alloc b.bi_sector 0 (Loop.enter g b) b.segs with
    | next l =>
      rw [hl] at h
      rw [← (Outcome.done.inj h).1]
      have := segment_loop_mono g alloc b.bi_sector b.segs 0 (Loop.enter g b) l (Or.inl hl) z
      rw [Loop.enter_zones] at this
      exact this
    | ret l =>
      rw [hl] at h
      rw [← (Outcome.done.inj h).1]
      have := segment_loop_mono g alloc b.bi_sector b.segs 0 (Loop.enter g b) l (Or.inr hl) z
      rw [Loop.enter_zones] at this
      exact this
    | fault =>
      rw [hl] at h
      cases h
    | bug =>
      rw [hl] at h
      cases h

theorem Outcome.eq_done_of_trace (g : Globals) (o : Outcome) (t : List Effect)
    (h : o.trace? = some t) : o = Outcome.done (o.globals g).zones t := by
  cases o with
  | done zs t' =>
    simp only [Outcome.trace?, Option.some.injEq] at h
    subst h
    rfl
  | fault => cases h
  | bug => cases h

section MonotoneWitness

set_option maxRecDepth 20000

theorem C13_write_pointer_monotone_witness :
    (sample_globals.zones 0).write_pointer = 0 ∧
    (((middle_layer_io sample_globals (fun _ => true)
      { bi_sector := 0, segs := [256000] }).globals sample_globals).zones 0).write_pointer
      = 500 ∧
    (sample_globals.zones 0).write_pointer
      ≤ (((middle_layer_io sample_globals (fun _ => true)
        { bi_sector := 0, segs := [256000] }).globals sample_globals).zones 0).write_pointer :=
  ⟨by decide, by decide,
    (C13_write_pointer_monotone sample_globals (fun _ => true)
      { bi_sector := 0, segs := [256000] } _ [Effect.submit_bio (16 * ZONE_SIZE) 256000]
      (Outcome.eq_done_of_trace sample_globals _ _ (by decide)) 0).1⟩

end MonotoneWitness

/-! ## The effect trace of a call -/

theorem endio_count_append (t u : List Effect) :
    endio_count (t ++ u) = endio_count t + endio_count u := by
  simp [endio_count, List.filter_append]

theorem submit_count_append (t u : List Effect) :
    submit_count (t ++ u) = submit_count t + submit_count u := by
  simp [submit_count, List.filter_append]

theorem advance_iter_trace (l : Loop) (bv_len : Nat) : (advance_iter l bv_len).trace = l.trace :=
  rfl

/-- A body that ran to its end neither completed nor forwarded the original request. -/
theorem segment_body_next_counts (g : Globals) (split_ok : Bool) (start_sector : Nat)
    (l l' : Loop) (bv_len : Nat)
    (h : segment_body g split_ok start_sector l bv_len = Step.next l') :
    endio_count l'.trace = endio_count l.trace ∧
    submit_count l'.trace = submit_count l.trace := by
  unfold segment_body at h
  simp only [] at h
  split at h
  · cases h
  · split at h
    · split at h
      · cases h
      · split at h
        · have := Step.next.inj h
          subst this
          simp only []
          rw [endio_count_append, submit_count_append]
          exact ⟨rfl, rfl⟩
        · have := Step.next.inj h
          subst this
          exact ⟨rfl, rfl⟩
    · split at h
      · cases h
      · have := Step.next.inj h
        subst this
        exact ⟨rfl, rfl⟩

theorem segment_loop_counts (g : Globals) (alloc : Nat → Bool) (start_sector : Nat)
    (segs : List Nat) (n : Nat) (l l' : Loop) :
    (segment_loop g alloc start_sector n l segs = Step.next l' →
      endio_count l'.trace = endio_count l.trace ∧
      submit_count l'.trace = submit_count l.trace) ∧
    (segment_loop g alloc start_sector n l segs = Step.ret l' →
      endio_count l'.trace = endio_count l.trace + 1 ∧
      submit_count l'.trace = submit_count l.trace) := by
  induction segs generalizing n l with
  | nil =>
    rw [segment_loop_nil]
    refine ⟨fun h => ?_, fun h => ?_⟩
    · rw [← Step.next.inj h]
      exact ⟨rfl, rfl⟩
    · cases h
  | cons x segs ih =>
    rw [segment_loop_cons]
    cases hb : segment_body g (alloc n) start_sector l x with
    | next l1 =>
      rw [Step.next_and_then]
      obtain ⟨h1, h2⟩ := segment_body_next_counts g _ start_sector l l1 x hb
      obtain ⟨ihn, ihr⟩ := ih (n + 1) (advance_iter l1 x)
      rw [advance_iter_trace, h1, h2] at ihn ihr
      exact ⟨ihn, ihr⟩
    | ret l1 =>
      rw [Step.ret_and_then]
      refine ⟨fun h => Step.noConfusion h, fun h => ?_⟩
      rw [← Step.ret.inj h, (segment_body_ret g _ start_sector l l1 x hb).2.2]
      simp only []
      rw [endio_count_append, submit_count_append]
      exact ⟨rfl, rfl⟩
    | fault => exact ⟨fun h => Step.noConfusion h, fun h => Step.noConfusion h⟩
    | bug => exact ⟨fun h => Step.noConfusion h, fun h => Step.noConfusion h⟩

/-- The body on an accepted segment runs to its end and adds no effect. -/
theorem segment_body_accepted (g : Globals) (split_ok : Bool) (start_sector : Nat) (l : Loop)
    (bv_len z : Nat) (hacc : Accepted start_sector l bv_len z) :
    ∃ l', segment_body g split_ok start_sector l bv_len = Step.next l' ∧ l'.trace = l.trace := by
  obtain ⟨h0, h1, hz, hin, heq⟩ := hacc
  rw [← hz] at heq
  unfold segment_body
  simp only []
  rw [if_neg (by omega), if_neg (by omega), if_neg (not_not.mpr heq)]
  exact ⟨_, rfl, rfl⟩

theorem all_accepted_cons (g : Globals) (alloc : Nat → Bool) (start_sector : Nat)
    (n : Nat) (l : Loop) (bv_len : Nat) (rest : List Nat) :
    all_accepted g alloc start_sector n l (bv_len :: rest)
      = ((∃ z, Accepted start_sector l bv_len z) ∧
        all_accepted g alloc start_sector (n + 1)
          (advance_iter ((segment_body g (alloc n) start_sector l bv_len).loop l) bv_len)
          rest) :=
  rfl

theorem Step.loop_next (l0 l : Loop) : (Step.next l).loop l0 = l := rfl

/-- When every segment is accepted the loop runs to its end and adds no effect. -/
theorem segment_loop_all_accepted (g : Globals) (alloc : Nat → Bool) (start_sector : Nat)
    (segs : List Nat) (n : Nat) (l : Loop)
    (h : all_accepted g alloc start_sector n l segs) :
    ∃ l', segment_loop g alloc start_sector n l segs = Step.next l' ∧ l'.trace = l.trace := by
  induction segs generalizing n l with
  | nil => exact ⟨l, segment_loop_nil g alloc start_sector n l, rfl⟩
  | cons x segs ih =>
    rw [all_accepted_cons] at h
    obtain ⟨⟨z, hacc⟩, hrest⟩ := h
    obtain ⟨l1, hb, ht⟩ := segment_body_accepted g (alloc n) start_sector l x z hacc
    rw [hb, Step.loop_next] at hrest
    obtain ⟨l', hl', ht'⟩ := ih (n + 1) (advance_iter l1 x) hrest
    refine ⟨l', ?_, ?_⟩
    · rw [segment_loop_cons, hb, Step.next_and_then]
      exact hl'
    · rw [ht', advance_iter_trace, ht]

section TraceEvaluation

set_option maxRecDepth 20000

/-- C14, evaluated on the code, in the state left by the initialisation. (1) The
in-range request of one 20-sector segment at sector 1071648751 stops on the `BUG_ON`
of `bio_split`: the original request is neither completed nor forwarded. (2) The
in-range one-sector request at sector `ZONE_SIZE` has its only segment wholly inside
logical zone 1, at in-zone offset 0, which is the write pointer of zone 1; the trace
is the `-EIO` completion of the request, not one forward of it. -/
theorem C14_trace_evaluated :
    end_sector { bi_sector := 1071648751, segs := [10240] } < sample_globals.device_size ∧
    (middle_layer_io sample_globals (fun _ => true)
      { bi_sector := 1071648751, segs := [10240] }).is_bug = true ∧
    (middle_layer_io sample_globals (fun _ => true)
      { bi_sector := 1071648751, segs := [10240] }).trace? = none ∧
    end_sector { bi_sector := ZONE_SIZE, segs := [512] } < sample_globals.device_size ∧
    ZONE_SIZE / ZONE_SIZE = 1 ∧ ZONE_SIZE % ZONE_SIZE = 0 ∧
    ZONE_SIZE % ZONE_SIZE + 1 ≤ ZONE_SIZE ∧
    (sample_globals.zones (ZONE_SIZE / ZONE_SIZE)).write_pointer = ZONE_SIZE % ZONE_SIZE ∧
    (middle_layer_io sample_globals (fun _ => true)
      { bi_sector := ZONE_SIZE, segs := [512] }).trace? = some [Effect.bio_endio (- EIO)] ∧
    submit_count [Effect.bio_endio (- EIO)] = 0 := by
  refine ⟨by decide, by decide, by decide, by decide, by decide, by decide, by decide,
    by decide, by decide, by decide⟩

end TraceEvaluation

/-- The shape of the trace of a call that returns: the original request is either
completed with an I/O error exactly once or forwarded exactly once, never both and
never neither; and when every segment of an in-range request is accepted by the loop
body as it reaches it, the call returns and the trace is exactly one forward of the
original request, with no split sub-request. -/
theorem middle_layer_io_trace_shape (g : Globals) (alloc : Nat → Bool) (b : bio) :
    (∀ zs t, middle_layer_io g alloc b = Outcome.done zs t →
      (endio_count t = 1 ∧ submit_count t = 0) ∨ (endio_count t = 0 ∧ submit_count t = 1)) ∧
    (end_sector b < g.device_size →
      all_accepted g alloc b.bi_sector 0 (Loop.enter g b) b.segs →
      ∃ zs sector size,
        middle_layer_io g alloc b = Outcome.done zs [Effect.submit_bio sector size]) := by
  refine ⟨fun zs t h => ?_, fun hrange hall => ?_⟩
  · unfold middle_layer_io at h
    simp only [] at h
    split at h
    · rw [← (Outcome.done.inj h).2]
      exact Or.inl ⟨rfl, rfl⟩
    · cases hl : segment_loop g alloc b.bi_sector 0 (Loop.enter g b) b.segs with
      | next l =>
        rw [hl] at h
        rw [← (Outcome.done.inj h).2]
        obtain ⟨h1, h2⟩ := (segment_loop_counts g alloc b.bi_sector b.segs 0 _ l).1 hl
        rw [Loop.enter_trace] at h1 h2
        rw [endio_count_append, submit_count_append, h1, h2]
        exact Or.inr ⟨rfl, rfl⟩
      | ret l =>
        rw [hl] at h
        rw [← (Outcome.done.inj h).2]
        obtain ⟨h1, h2⟩ := (segment_loop_counts g alloc b.bi_sector b.segs 0 _ l).2 hl
        rw [Loop.enter_trace] at h1 h2
        rw [h1, h2]
        exact Or.inl ⟨rfl, rfl⟩
      | fault =>
        rw [hl] at h
        cases h
      | bug =>
        rw [hl] at h
        cases h
  · obtain ⟨l, hl, ht⟩ := segment_loop_all_accepted g alloc b.bi_sector b.segs 0 _ hall
    rw [Loop.enter_trace] at ht
    refine ⟨l.zones, l.bi_sector, l.bi_size, ?_⟩
    unfold middle_layer_io
    simp only [ge_iff_le]
    rw [if_neg (by omega), hl]
    simp only [ht, List.nil_append]

section TraceExample

set_option maxRecDepth 20000

theorem middle_layer_io_trace_shape_example :
    end_sector { bi_sector := 0, segs := [512] } < sample_globals.device_size ∧
    (middle_layer_io sample_globals (fun _ => true) { bi_sector := 0, segs := [512] }).trace?
      = some [Effect.submit_bio (16 * ZONE_SIZE) 512] ∧
    ((endio_count [Effect.submit_bio (16 * ZONE_SIZE) 512] = 1 ∧
        submit_count [Effect.submit_bio (16 * ZONE_SIZE) 512] = 0) ∨
      (endio_count [Effect.submit_bio (16 * ZONE_SIZE) 512] = 0 ∧
        submit_count [Effect.submit_bio (16 * ZONE_SIZE) 512] = 1)) ∧
    (∃ zs sector size,
      middle_layer_io sample_globals (fun _ => true) { bi_sector := 0, segs := [512] }
        = Outcome.done zs [Effect.submit_bio sector size]) :=
  ⟨by decide, by decide,
    (middle_layer_io_trace_shape sample_globals (fun _ => true)
      { bi_sector := 0, segs := [512] }).1 _ _
      (Outcome.eq_done_of_trace sample_globals _ _ (by decide)),
    (middle_layer_io_trace_shape sample_globals (fun _ => true)
      { bi_sector := 0, segs := [512] }).2 (by decide)
      ⟨⟨0, by decide, by decide, by decide, by decide, by decide⟩, trivial⟩⟩

end TraceExample

end IoMidDemo
